import Mathlib

/-!
# OpenGL-with-ImGui: verification of `src/OpenGL/main.cpp`

A shallow embedding of the application state, the quad and circle mesh
builders, the texture guard, the settings writer and reader and the input
callbacks of `main.cpp`, with the properties the specification states about
them.

Modelling conventions.

* C `float` and `double` values are elements of a linear ordered field `F`;
  infinities and NaN are not values of the model. The camera pan of
  `cursorPosCallback` rounds every operation through the parameter `FloatLib`,
  whose IEEE 754 instance over `ℚ` is `ieeeFloats`; a theorem about it carries
  the hypothesis that no operation overflows. The arithmetic of `setupCircle`,
  of `scrollCallback` and of the model matrix is exact. The closed examples
  run the definitions at `F = ℚ`.
* C `int` values are `Int`. The narrowing cast of the program
  (`static_cast<GLsizei>` of a container size) is `toGLsizei`, which wraps
  modulo `2^32`. The `int` loop counters of `setupCircle` are bounded by
  `INT_MAX` in `setupCircleRun`; the closed forms `circleVertices`,
  `circleIndices` and `setupCircle` give what the loops return when they
  exit, which they do exactly for a segment count below `INT_MAX`.
* `cosf` and `sinf` come from the C math library and are parameters
  (`MathLib`); the formatted extraction operators of `<sstream>` for `int`,
  `bool` and `float` are parameters (`StreamLib`), and so are the insertion
  operators of `<fstream>` (`PrintLib`).
* The process-wide globals of `main.cpp` are the fields of `AppState`; a
  function of the program that writes globals is a function on `AppState`.
  Names of GPU objects (VAO, VBO, EBO) are not modelled, the data uploaded
  into the buffers is.
-/

namespace OpenGLApp

/-! ## Data model -/

/-- The `Vertex` struct: position, colour and texture coordinates. -/
structure Vertex (F : Type) where
  position : F × F × F
  color : F × F × F
  texCoords : F × F
deriving DecidableEq, Repr

/-- The `ShapeType` enum class; its underlying type is `int` and
`static_cast<ShapeType>(i)` accepts every `int`, so a shape is an `Int`. -/
abbrev ShapeType := Int

/-- Enumerator `ShapeType::NONE`. -/
def ShapeType.NONE : ShapeType := 0
/-- Enumerator `ShapeType::TRIANGLE`. -/
def ShapeType.TRIANGLE : ShapeType := 1
/-- Enumerator `ShapeType::QUAD`. -/
def ShapeType.QUAD : ShapeType := 2
/-- Enumerator `ShapeType::CIRCLE`. -/
def ShapeType.CIRCLE : ShapeType := 3

/-- The contents of a vertex buffer and of the element buffer bound with it. -/
structure Mesh (F : Type) where
  vertices : List (Vertex F)
  indices : List Nat
deriving DecidableEq, Repr

/-- The functions of the C math library used by `setupCircle` and by
`glm::rotate`. -/
structure MathLib (F : Type) where
  cosf : F → F
  sinf : F → F

/-- The globals of `main.cpp` (lines 47-76), with the buffer contents that the
setup functions upload and the close request held by the window. -/
structure AppState (F : Type) where
  windowShouldClose : Bool
  currentShape : ShapeType
  wireframeMode : Bool
  shapeColor : F × F × F
  useUniformColor : Bool
  translation : F × F
  rotationAngle : F
  scale : F
  clearColor : F × F × F × F
  showMenu : Bool
  triangleVertices : List (Vertex F)
  quadMesh : Mesh F
  quadIndexCount : Int
  circleMesh : Mesh F
  circleIndexCount : Int
  circleSegments : Int
  textureID : Nat
  enableTexture : Bool
  cameraOffset : F × F
  cameraZoom : F
  isDragging : Bool
  lastMouseX : F
  lastMouseY : F
deriving DecidableEq

/-- The initial values of the globals (lines 47-76); no buffer is uploaded yet
and no close is requested. -/
def defaultState (F : Type) [LinearOrderedField F] : AppState F where
  windowShouldClose := false
  currentShape := ShapeType.NONE
  wireframeMode := false
  shapeColor := (1, 1, 0)
  useUniformColor := true
  translation := (0, 0)
  rotationAngle := 0
  scale := 1
  clearColor := (1 / 10, 1 / 10, 15 / 100, 1)
  showMenu := true
  triangleVertices := []
  quadMesh := ⟨[], []⟩
  quadIndexCount := 0
  circleMesh := ⟨[], []⟩
  circleIndexCount := 0
  circleSegments := 36
  textureID := 0
  enableTexture := false
  cameraOffset := (0, 0)
  cameraZoom := 1
  isDragging := false
  lastMouseX := 0
  lastMouseY := 0

/-- The cast `static_cast<GLsizei>(v.size())`: a `size_t` narrowed to a 32-bit
signed integer. -/
def toGLsizei (n : Nat) : Int :=
  ((n : Int) + 2 ^ 31) % 2 ^ 32 - 2 ^ 31

/-! ## Geometry: `setupCircle` -/

section Geometry

variable {F : Type} [LinearOrderedField F]

/-- The macro `M_PI` (line 25). -/
def M_PI : F := 3.14159265358979323846

/-- The body of the first loop of `setupCircle` (lines 258-262): the perimeter
vertex pushed at loop counter `i`. -/
def circleVertex (m : MathLib F) (numSegments : Int) (i : Nat) : Vertex F :=
  let radius : F := 1 / 2
  let angle : F := 2 * M_PI * (i : F) / (numSegments : F)
  let x := radius * m.cosf angle
  let y := radius * m.sinf angle
  let r := (m.cosf angle + 1) * (1 / 2)
  let g := (m.sinf angle + 1) * (1 / 2)
  let u := (x / radius + 1) * (1 / 2)
  let v := (y / radius + 1) * (1 / 2)
  ⟨(x, y, 0), (r, g, 1 / 2), (u, v)⟩

/-- The vector `vertices` at the end of `setupCircle` (lines 256-263), in
closed form: the centre, then one vertex for every `i` with
`0 <= i <= numSegments`. It is what the loop `circleVertexLoop` returns when it
exits, that is for `numSegments < INT_MAX` (`circleVertexLoop_eq`). -/
def circleVertices (m : MathLib F) (numSegments : Int) : List (Vertex F) :=
  ⟨(0, 0, 0), (1, 1, 1), (1 / 2, 1 / 2)⟩ ::
    (List.range (numSegments + 1).toNat).map (circleVertex m numSegments)

/-- The vector `indices` at the end of `setupCircle` (line 264), in closed
form: for every `i` with `0 <= i < numSegments` the three values `0`, `i + 1`,
`i + 2`. It is what the loop `circleIndexLoop` returns when it exits
(`circleIndexLoop_eq`). -/
def circleIndices (numSegments : Int) : List Nat :=
  ((List.range numSegments.toNat).map fun i => [0, i + 1, i + 2]).flatten

/-- The vertex and index data that `setupCircle(numSegments)` uploads. -/
def circleMeshOf (m : MathLib F) (numSegments : Int) : Mesh F :=
  ⟨circleVertices m numSegments, circleIndices numSegments⟩

/-- The state that `setupCircle` (lines 252-274) leaves when it returns: the
two vectors are built, the index count is recorded and both vectors are
uploaded into the circle buffers. The function with its loops and their `int`
counters is `setupCircleRun`; it returns this state for every
`numSegments < INT_MAX` (`setupCircleRun_eq`) and does not return for
`numSegments = INT_MAX` (`setupCircleRun_intMax`). -/
def setupCircle (m : MathLib F) (numSegments : Int) (st : AppState F) : AppState F :=
  { st with
    circleIndexCount := toGLsizei (circleIndices numSegments).length
    circleMesh := circleMeshOf m numSegments }

/-- The largest `int` (32 bits). -/
def INT_MAX : Int := 2147483647

/-- The first loop of `setupCircle` (lines 257-263) with its `int` counter `i`,
run for at most `fuel` evaluations of the loop test. The result is `none` when
the fuel runs out, and when `++i` would pass `INT_MAX`, where the source has
no defined behaviour. -/
def circleVertexLoop (m : MathLib F) (numSegments : Int) :
    Nat → Nat → List (Vertex F) → Option (List (Vertex F))
  | 0, _, _ => none
  | fuel + 1, i, vertices =>
    if (i : Int) ≤ numSegments then
      if (i : Int) + 1 ≤ INT_MAX then
        circleVertexLoop m numSegments fuel (i + 1) (vertices ++ [circleVertex m numSegments i])
      else none
    else some vertices

/-- The second loop of `setupCircle` (line 264) with its `int` counter `i`, run
for at most `fuel` evaluations of the loop test; `i + 1` and `i + 2` are `int`
sums converted to `unsigned int`. The result is `none` when the fuel runs out
and when `i + 2` would pass `INT_MAX`. -/
def circleIndexLoop (numSegments : Int) : Nat → Nat → List Nat → Option (List Nat)
  | 0, _, _ => none
  | fuel + 1, i, indices =>
    if (i : Int) < numSegments then
      if (i : Int) + 2 ≤ INT_MAX then
        circleIndexLoop numSegments fuel (i + 1) (indices ++ [0, i + 1, i + 2])
      else none
    else some indices

/-- The function `setupCircle` (lines 252-274) run with its two loops: the
state it leaves when both loops exit within `fuel` tests each, `none` when
one of them does not. -/
def setupCircleRun (fuel : Nat) (m : MathLib F) (numSegments : Int) (st : AppState F) :
    Option (AppState F) :=
  match circleVertexLoop m numSegments fuel 0 [⟨(0, 0, 0), (1, 1, 1), (1 / 2, 1 / 2)⟩] with
  | none => none
  | some vertices =>
    match circleIndexLoop numSegments fuel 0 [] with
    | none => none
    | some indices =>
      some { st with
        circleIndexCount := toGLsizei indices.length
        circleMesh := ⟨vertices, indices⟩ }

/-- The vector `vertices` of `setupQuad` (lines 233-238). -/
def quadVertices : List (Vertex F) :=
  [⟨(1 / 2, 1 / 2, 0), (1, 1, 1), (1, 1)⟩,
    ⟨(1 / 2, -(1 / 2), 0), (1, 1, 1), (1, 0)⟩,
    ⟨(-(1 / 2), -(1 / 2), 0), (1, 1, 1), (0, 0)⟩,
    ⟨(-(1 / 2), 1 / 2, 0), (1, 1, 1), (0, 1)⟩]

/-- The vector `indices` of `setupQuad` (line 239). -/
def quadIndices : List Nat :=
  [0, 1, 3, 1, 2, 3]

/-- The function `setupQuad` (lines 232-250): records the index count and
uploads the two vectors into the quad buffers. -/
def setupQuad (st : AppState F) : AppState F :=
  { st with
    quadIndexCount := toGLsizei quadIndices.length
    quadMesh := ⟨quadVertices, quadIndices⟩ }

end Geometry

/-! ## Texture and draw call -/

/-- The function `loadTexture` (lines 181-215), as far as its result goes:
`generated` is the name that `glGenTextures` hands out and `image` the number
of components of the decoded image, `none` when `stbi_load` returns null. -/
def loadTexture (generated : Nat) (image : Option Int) : Nat :=
  match image with
  | some nrComponents =>
    if nrComponents = 1 then generated
    else if nrComponents = 3 then generated
    else if nrComponents = 4 then generated
    else 0
  | none => 0

/-- The local `actuallyUseTexture` of the frame loop (line 485). -/
def actuallyUseTexture {F : Type} (st : AppState F) : Bool :=
  st.enableTexture && (st.currentShape == ShapeType.QUAD) && (st.textureID != 0)

/-- The value written to the `useTexture` uniform (line 486). -/
def useTextureUniform {F : Type} (st : AppState F) : Int :=
  if actuallyUseTexture st then 1 else 0

/-- The count argument of the indexed draw call that the `switch` of the frame
loop issues (lines 494-495); `none` for the shapes drawn without indices or not
drawn. -/
def drawElementsCount {F : Type} (st : AppState F) : Option Int :=
  if st.currentShape = ShapeType.QUAD then some st.quadIndexCount
  else if st.currentShape = ShapeType.CIRCLE then some st.circleIndexCount
  else none

/-! ## Settings reader: `loadSettings` -/

/-- A `std::stringstream` being read: the unread characters and whether the
stream is still `good()` (neither `eofbit` nor `failbit` is set). -/
structure IStream where
  buf : List Char
  good : Bool
deriving DecidableEq, Repr

/-- The whitespace characters of the classic locale, which formatted input
skips. -/
def isSpace (c : Char) : Bool :=
  c.toNat = 32 || (9 ≤ c.toNat && c.toNat ≤ 13)

/-- The construction `std::stringstream ss(line)`. -/
def IStream.ofLine (line : String) : IStream :=
  ⟨line.toList, true⟩

/-- The extraction `ss >> key` into a `std::string` that was empty: a stream
that is not good, or holds only whitespace, fails and leaves the string empty;
otherwise leading whitespace is skipped and the characters up to the next
whitespace are taken; reaching the end of the buffer sets `eofbit`. -/
def IStream.getWord (ss : IStream) : String × IStream :=
  if ss.good then
    match ss.buf.dropWhile isSpace with
    | [] => ("", ⟨[], false⟩)
    | c :: cs =>
      (String.mk ((c :: cs).takeWhile fun d => !isSpace d),
        ⟨(c :: cs).dropWhile (fun d => !isSpace d),
          !((c :: cs).dropWhile fun d => !isSpace d).isEmpty⟩)
  else ("", ss)

/-- What `std::num_get::get` reports on a buffer that starts with a
non-whitespace character: the value it stores (`none` when it stores nothing),
the characters it leaves unread and whether the stream is good afterwards. -/
structure NumGet (T : Type) where
  val : Option T
  rest : List Char
  good : Bool

/-- The parts of the C++ runtime that `loadSettings` relies on: the numeric
parsers behind `ss >> int`, `ss >> bool` and `ss >> float`, and the value read
from the uninitialised local `int i` of the `Shape` branch when the extraction
stores nothing. -/
structure StreamLib (F : Type) where
  getInt : List Char → NumGet Int
  getBool : List Char → NumGet Bool
  getFloat : List Char → NumGet F
  indeterminate : Int

/-- The formatted extraction `ss >> x` for an arithmetic `x` holding `old`: the
sentry fails on a stream that is not good or that holds only whitespace, and
then `x` keeps its value; otherwise `num_get` parses from the first
non-whitespace character. -/
def IStream.extract {T : Type} (get : List Char → NumGet T) (ss : IStream) (old : T) :
    T × IStream :=
  if ss.good then
    match ss.buf.dropWhile isSpace with
    | [] => (old, ⟨[], false⟩)
    | c :: cs => (((get (c :: cs)).val).getD old, ⟨(get (c :: cs)).rest, (get (c :: cs)).good⟩)
  else (old, ss)

/-- The first token of a line: the string that `ss >> key` stores. -/
def lineKey (line : String) : String :=
  (IStream.ofLine line).getWord.1

/-- The stream left after `ss >> key`. -/
def lineRest (line : String) : IStream :=
  (IStream.ofLine line).getWord.2

/-- The thirteen keys that `loadSettings` recognises, in the order of its
`if`/`else if` chain. -/
def recognisedKeys : List String :=
  ["Shape", "Wireframe", "UseUniformColor", "ShapeColor", "ClearColor", "Translation",
    "Rotation", "Scale", "CircleSegments", "EnableTexture", "CameraOffset", "CameraZoom",
    "ShowMenu"]

section Load

variable {F : Type} [LinearOrderedField F]

/-- One iteration of the `while (std::getline(inFile, line))` loop of
`loadSettings` (lines 301-314), on the globals and the local
`loadedSegments`. -/
def loadLine (lib : StreamLib F) (line : String) (acc : AppState F × Int) : AppState F × Int :=
  let st := acc.1
  let loadedSegments := acc.2
  let key := lineKey line
  let ss := lineRest line
  if key = "Shape" then
    ({ st with currentShape := (ss.extract lib.getInt lib.indeterminate).1 }, loadedSegments)
  else if key = "Wireframe" then
    ({ st with wireframeMode := (ss.extract lib.getBool st.wireframeMode).1 }, loadedSegments)
  else if key = "UseUniformColor" then
    ({ st with useUniformColor := (ss.extract lib.getBool st.useUniformColor).1 }, loadedSegments)
  else if key = "ShapeColor" then
    let r0 := ss.extract lib.getFloat st.shapeColor.1
    let r1 := r0.2.extract lib.getFloat st.shapeColor.2.1
    let r2 := r1.2.extract lib.getFloat st.shapeColor.2.2
    ({ st with shapeColor := (r0.1, r1.1, r2.1) }, loadedSegments)
  else if key = "ClearColor" then
    let r0 := ss.extract lib.getFloat st.clearColor.1
    let r1 := r0.2.extract lib.getFloat st.clearColor.2.1
    let r2 := r1.2.extract lib.getFloat st.clearColor.2.2.1
    let r3 := r2.2.extract lib.getFloat st.clearColor.2.2.2
    ({ st with clearColor := (r0.1, r1.1, r2.1, r3.1) }, loadedSegments)
  else if key = "Translation" then
    let r0 := ss.extract lib.getFloat st.translation.1
    let r1 := r0.2.extract lib.getFloat st.translation.2
    ({ st with translation := (r0.1, r1.1) }, loadedSegments)
  else if key = "Rotation" then
    ({ st with rotationAngle := (ss.extract lib.getFloat st.rotationAngle).1 }, loadedSegments)
  else if key = "Scale" then
    ({ st with scale := (ss.extract lib.getFloat st.scale).1 }, loadedSegments)
  else if key = "CircleSegments" then
    (st, (ss.extract lib.getInt loadedSegments).1)
  else if key = "EnableTexture" then
    ({ st with enableTexture := (ss.extract lib.getBool st.enableTexture).1 }, loadedSegments)
  else if key = "CameraOffset" then
    let r0 := ss.extract lib.getFloat st.cameraOffset.1
    let r1 := r0.2.extract lib.getFloat st.cameraOffset.2
    ({ st with cameraOffset := (r0.1, r1.1) }, loadedSegments)
  else if key = "CameraZoom" then
    ({ st with cameraZoom := (ss.extract lib.getFloat st.cameraZoom).1 }, loadedSegments)
  else if key = "ShowMenu" then
    ({ st with showMenu := (ss.extract lib.getBool st.showMenu).1 }, loadedSegments)
  else (st, loadedSegments)

/-- The `while` loop of `loadSettings` over the lines that `std::getline`
yields. -/
def loadLines (lib : StreamLib F) (lines : List String) (acc : AppState F × Int) :
    AppState F × Int :=
  lines.foldl (fun a line => loadLine lib line a) acc

/-- The function `loadSettings` (lines 295-321). The file is `none` when it
cannot be opened, otherwise the list of its lines. The call of `setupCircle`
is taken at the state it returns, so the result is that of the source
whenever the segment count read is below `INT_MAX`. -/
def loadSettings (lib : StreamLib F) (m : MathLib F) (file : Option (List String))
    (st : AppState F) : AppState F :=
  match file with
  | none => st
  | some lines =>
    let r := loadLines lib lines (st, st.circleSegments)
    if r.2 ≠ r.1.circleSegments then
      setupCircle m r.2 { r.1 with circleSegments := r.2 }
    else r.1

end Load

/-! ### The branches of the reader, one by one -/

/-- The branches of the `if`/`else if` chain of `loadLine`. -/
inductive Key where
  | shape | wireframe | useUniformColor | shapeColor | clearColor | translation | rotation
  | scale | circleSegments | enableTexture | cameraOffset | cameraZoom | showMenu
deriving DecidableEq, Repr

/-- The branch that a first token selects, `none` for the final `else`. -/
def keyOf (key : String) : Option Key :=
  if key = "Shape" then some .shape
  else if key = "Wireframe" then some .wireframe
  else if key = "UseUniformColor" then some .useUniformColor
  else if key = "ShapeColor" then some .shapeColor
  else if key = "ClearColor" then some .clearColor
  else if key = "Translation" then some .translation
  else if key = "Rotation" then some .rotation
  else if key = "Scale" then some .scale
  else if key = "CircleSegments" then some .circleSegments
  else if key = "EnableTexture" then some .enableTexture
  else if key = "CameraOffset" then some .cameraOffset
  else if key = "CameraZoom" then some .cameraZoom
  else if key = "ShowMenu" then some .showMenu
  else none

/-- The token that selects a branch. -/
def Key.name : Key → String
  | .shape => "Shape"
  | .wireframe => "Wireframe"
  | .useUniformColor => "UseUniformColor"
  | .shapeColor => "ShapeColor"
  | .clearColor => "ClearColor"
  | .translation => "Translation"
  | .rotation => "Rotation"
  | .scale => "Scale"
  | .circleSegments => "CircleSegments"
  | .enableTexture => "EnableTexture"
  | .cameraOffset => "CameraOffset"
  | .cameraZoom => "CameraZoom"
  | .showMenu => "ShowMenu"

/-- The effect of one branch of `loadLine` on the globals and on
`loadedSegments`, given the stream left after the key. -/
def applyKey {F : Type} (lib : StreamLib F) (k : Option Key) (ss : IStream)
    (acc : AppState F × Int) : AppState F × Int :=
  match k with
  | none => acc
  | some .shape =>
    ({ acc.1 with currentShape := (ss.extract lib.getInt lib.indeterminate).1 }, acc.2)
  | some .wireframe =>
    ({ acc.1 with wireframeMode := (ss.extract lib.getBool acc.1.wireframeMode).1 }, acc.2)
  | some .useUniformColor =>
    ({ acc.1 with useUniformColor := (ss.extract lib.getBool acc.1.useUniformColor).1 }, acc.2)
  | some .shapeColor =>
    ({ acc.1 with
        shapeColor :=
          ((ss.extract lib.getFloat acc.1.shapeColor.1).1,
            ((ss.extract lib.getFloat acc.1.shapeColor.1).2.extract lib.getFloat
              acc.1.shapeColor.2.1).1,
            (((ss.extract lib.getFloat acc.1.shapeColor.1).2.extract lib.getFloat
              acc.1.shapeColor.2.1).2.extract lib.getFloat acc.1.shapeColor.2.2).1) }, acc.2)
  | some .clearColor =>
    ({ acc.1 with
        clearColor :=
          ((ss.extract lib.getFloat acc.1.clearColor.1).1,
            ((ss.extract lib.getFloat acc.1.clearColor.1).2.extract lib.getFloat
              acc.1.clearColor.2.1).1,
            (((ss.extract lib.getFloat acc.1.clearColor.1).2.extract lib.getFloat
              acc.1.clearColor.2.1).2.extract lib.getFloat acc.1.clearColor.2.2.1).1,
            ((((ss.extract lib.getFloat acc.1.clearColor.1).2.extract lib.getFloat
              acc.1.clearColor.2.1).2.extract lib.getFloat acc.1.clearColor.2.2.1).2.extract
                lib.getFloat acc.1.clearColor.2.2.2).1) }, acc.2)
  | some .translation =>
    ({ acc.1 with
        translation :=
          ((ss.extract lib.getFloat acc.1.translation.1).1,
            ((ss.extract lib.getFloat acc.1.translation.1).2.extract lib.getFloat
              acc.1.translation.2).1) }, acc.2)
  | some .rotation =>
    ({ acc.1 with rotationAngle := (ss.extract lib.getFloat acc.1.rotationAngle).1 }, acc.2)
  | some .scale => ({ acc.1 with scale := (ss.extract lib.getFloat acc.1.scale).1 }, acc.2)
  | some .circleSegments => (acc.1, (ss.extract lib.getInt acc.2).1)
  | some .enableTexture =>
    ({ acc.1 with enableTexture := (ss.extract lib.getBool acc.1.enableTexture).1 }, acc.2)
  | some .cameraOffset =>
    ({ acc.1 with
        cameraOffset :=
          ((ss.extract lib.getFloat acc.1.cameraOffset.1).1,
            ((ss.extract lib.getFloat acc.1.cameraOffset.1).2.extract lib.getFloat
              acc.1.cameraOffset.2).1) }, acc.2)
  | some .cameraZoom =>
    ({ acc.1 with cameraZoom := (ss.extract lib.getFloat acc.1.cameraZoom).1 }, acc.2)
  | some .showMenu =>
    ({ acc.1 with showMenu := (ss.extract lib.getBool acc.1.showMenu).1 }, acc.2)

/-- The value that a line stores into `loadedSegments`: the line must select
the `CircleSegments` branch, the stream after the key must be good and hold a
token, and `num_get` must store a value; `none` otherwise. -/
def segmentsOfLine {F : Type} (lib : StreamLib F) (line : String) : Option Int :=
  if lineKey line = "CircleSegments" ∧ (lineRest line).good = true then
    match (lineRest line).buf.dropWhile isSpace with
    | [] => none
    | c :: cs => (lib.getInt (c :: cs)).val
  else none

/-! ## Settings writer: `saveSettings` -/

/-- The rounding done by the two floating-point types of the program: the
value of type `float`, and of type `double`, that an operation stores when its
exact result is the argument. -/
structure FloatLib (F : Type) where
  toFloat : F → F
  toDouble : F → F

section FloatRange

variable {F : Type} [LinearOrderedField F]

/-- The macro `FLT_MAX` of `<cfloat>`, the largest finite `float`:
`(2^24 - 1) * 2^104`. -/
def FLT_MAX : F := 340282346638528859811704183484516925440

/-- An exact result that a `float` operation rounds to a finite value; outside
this range the operation overflows to an infinity. -/
def inFloatRange (x : F) : Prop :=
  -FLT_MAX ≤ x ∧ x ≤ FLT_MAX

/-- What the theorems use of round-to-nearest: on results within the `float`
range neither rounding reverses an order, and zero is stored exactly. -/
def FloatLib.Rounds (fl : FloatLib F) : Prop :=
  (∀ a b : F, inFloatRange a → inFloatRange b → a ≤ b → fl.toFloat a ≤ fl.toFloat b) ∧
    fl.toFloat 0 = 0 ∧
    (∀ a b : F, inFloatRange a → inFloatRange b → a ≤ b → fl.toDouble a ≤ fl.toDouble b) ∧
    fl.toDouble 0 = 0

end FloatRange

/-- Rounding of a rational to the nearest integer, a tie going to the even
neighbour. -/
def roundHalfEven (q : ℚ) : Int :=
  if q - ⌊q⌋ < 1 / 2 then ⌊q⌋
  else if 1 / 2 < q - ⌊q⌋ then ⌊q⌋ + 1
  else if ⌊q⌋ % 2 = 0 then ⌊q⌋
  else ⌊q⌋ + 1

/-- Rounding of a rational to the nearest number of a binary floating-point
format with `p` significant bits and least exponent `emin` (subnormal numbers
included), ties to even. The exponent is not bounded above: a result beyond
the largest finite number of the format is rounded as if the format went on. -/
def roundBinary (p : Nat) (emin : Int) (x : ℚ) : ℚ :=
  if x = 0 then 0
  else
    roundHalfEven (x / (2 : ℚ) ^ (max (Int.log 2 |x|) emin - ((p : Int) - 1))) *
      (2 : ℚ) ^ (max (Int.log 2 |x|) emin - ((p : Int) - 1))

/-- Rounding to IEEE 754 binary32, the type `float`. -/
def binary32 (x : ℚ) : ℚ :=
  roundBinary 24 (-126) x

/-- Rounding to IEEE 754 binary64, the type `double`. -/
def binary64 (x : ℚ) : ℚ :=
  roundBinary 53 (-1022) x

/-- The two IEEE 754 roundings. -/
def ieeeFloats : FloatLib ℚ where
  toFloat := binary32
  toDouble := binary64

/-! ## Input callbacks -/

/-- The two fields of the structure ImGuiIO through which the UI layer reports that it wants
the pointer or the keyboard. -/
structure ImGuiIO where
  WantCaptureMouse : Bool
  WantCaptureKeyboard : Bool
deriving DecidableEq, Repr

/-- The GLFW constant `GLFW_RELEASE`. -/
def GLFW_RELEASE : Int := 0
/-- The GLFW constant `GLFW_PRESS`. -/
def GLFW_PRESS : Int := 1
/-- The GLFW constant `GLFW_MOUSE_BUTTON_MIDDLE`. -/
def GLFW_MOUSE_BUTTON_MIDDLE : Int := 2
/-- The GLFW constant `GLFW_KEY_ESCAPE`. -/
def GLFW_KEY_ESCAPE : Int := 256
/-- The GLFW constant `GLFW_KEY_INSERT`. -/
def GLFW_KEY_INSERT : Int := 260

section Callbacks

variable {F : Type} [LinearOrderedField F]

/-- The function `mouseButtonCallback` (lines 327-336); `cursor` is the
position that `glfwGetCursorPos` reports. -/
def mouseButtonCallback (io : ImGuiIO) (cursor : F × F) (button action _mods : Int)
    (st : AppState F) : AppState F :=
  if io.WantCaptureMouse then st
  else if button = GLFW_MOUSE_BUTTON_MIDDLE ∧ action = GLFW_PRESS then
    { st with isDragging := true, lastMouseX := cursor.1, lastMouseY := cursor.2 }
  else if button = GLFW_MOUSE_BUTTON_MIDDLE ∧ action = GLFW_RELEASE then
    { st with isDragging := false }
  else st

/-- The function `cursorPosCallback` (lines 338-350); `size` is the width and
height that `glfwGetFramebufferSize` reports. The positions are of type
`double`, the deltas and the camera offset of type `float`: every operation
stores its exact result rounded to the type it is computed in. -/
def cursorPosCallback (fl : FloatLib F) (io : ImGuiIO) (size : Int × Int) (xpos ypos : F)
    (st : AppState F) : AppState F :=
  if io.WantCaptureMouse then st
  else if st.isDragging then
    let dx := fl.toFloat (fl.toDouble (xpos - st.lastMouseX))
    let dy := fl.toFloat (fl.toDouble (ypos - st.lastMouseY))
    let width := size.1
    let height := size.2
    let st1 :=
      if width > 0 ∧ height > 0 then
        { st with
          cameraOffset :=
            (fl.toFloat (st.cameraOffset.1 +
                fl.toFloat (fl.toFloat (dx * fl.toFloat (2 / fl.toFloat (width : F))) *
                  fl.toFloat (1 / st.cameraZoom))),
              fl.toFloat (st.cameraOffset.2 -
                fl.toFloat (fl.toFloat (dy * fl.toFloat (2 / fl.toFloat (height : F))) *
                  fl.toFloat (1 / st.cameraZoom)))) }
      else st
    { st1 with lastMouseX := xpos, lastMouseY := ypos }
  else st

/-- The `float` value of `d * (2.0f / extent) * (1.0f / cameraZoom)` as lines
345-346 compute it, `d` being the `double` difference `delta` converted to
`float`: four operations and three conversions, each rounded. -/
def panStep (fl : FloatLib F) (delta : F) (extent : Int) (zoom : F) : F :=
  fl.toFloat
    (fl.toFloat (fl.toFloat (fl.toDouble delta) * fl.toFloat (2 / fl.toFloat (extent : F))) *
      fl.toFloat (1 / zoom))

/-- No operation in the computation of `panStep` overflows: every exact result
that is rounded lies within the `float` range. -/
def panStepInRange (fl : FloatLib F) (delta : F) (extent : Int) (zoom : F) : Prop :=
  inFloatRange delta ∧ inFloatRange (fl.toDouble delta) ∧ inFloatRange (extent : F) ∧
    inFloatRange (2 / fl.toFloat (extent : F)) ∧
    inFloatRange (fl.toFloat (fl.toDouble delta) * fl.toFloat (2 / fl.toFloat (extent : F))) ∧
    inFloatRange (1 / zoom) ∧
    inFloatRange
      (fl.toFloat (fl.toFloat (fl.toDouble delta) * fl.toFloat (2 / fl.toFloat (extent : F))) *
        fl.toFloat (1 / zoom))

/-- No operation of the camera update of lines 345-346 overflows, for a cursor
move to `(xpos, ypos)`, and the stored offset y is finite. -/
def panInRange (fl : FloatLib F) (size : Int × Int) (xpos ypos : F) (st : AppState F) : Prop :=
  panStepInRange fl (xpos - st.lastMouseX) size.1 st.cameraZoom ∧
    inFloatRange
      (st.cameraOffset.1 + panStep fl (xpos - st.lastMouseX) size.1 st.cameraZoom) ∧
    panStepInRange fl (ypos - st.lastMouseY) size.2 st.cameraZoom ∧
    inFloatRange
      (st.cameraOffset.2 - panStep fl (ypos - st.lastMouseY) size.2 st.cameraZoom) ∧
    inFloatRange st.cameraOffset.2

/-- The function `scrollCallback` (lines 352-359). -/
def scrollCallback (io : ImGuiIO) (_xoffset yoffset : F) (st : AppState F) : AppState F :=
  if io.WantCaptureMouse then st
  else
    let zoomSensitivity : F := 1 / 10
    let z0 := st.cameraZoom + yoffset * zoomSensitivity * st.cameraZoom
    let z1 := if z0 < 5 / 100 then 5 / 100 else z0
    let z2 := if z1 > 20 then 20 else z1
    { st with cameraZoom := z2 }

/-- The function `keyCallback` (lines 361-370). -/
def keyCallback (_io : ImGuiIO) (key _scancode action _mods : Int) (st : AppState F) :
    AppState F :=
  let st1 :=
    if key = GLFW_KEY_INSERT ∧ action = GLFW_PRESS then { st with showMenu := !st.showMenu }
    else st
  if key = GLFW_KEY_ESCAPE ∧ action = GLFW_PRESS then { st1 with windowShouldClose := true }
  else st1

/-- A sequence of scroll events, each with the UI flags under which it is
delivered and its two offsets, applied in order. -/
def scrollAll (events : List ( ImGuiIO × F × F)) (st : AppState F) : AppState F :=
  events.foldl (fun s e => scrollCallback e.1 e.2.1 e.2.2 s) st

end Callbacks

/-! ## Model matrix -/

section ModelMatrix

variable {F : Type} [LinearOrderedField F]

/-- A `glm::mat4`. -/
abbrev Mat4 (F : Type) := Matrix (Fin 4) (Fin 4) F

/-- The matrix `Translate(x, y, z)`. -/
def translateMat (x y z : F) : Mat4 F :=
  !![1, 0, 0, x; 0, 1, 0, y; 0, 0, 1, z; 0, 0, 0, 1]

/-- The matrix `RotateZ` with the given cosine and sine. -/
def rotateZMat (c s : F) : Mat4 F :=
  !![c, -s, 0, 0; s, c, 0, 0; 0, 0, 1, 0; 0, 0, 0, 1]

/-- The matrix `Scale(x, y, z)`. -/
def scaleMat (x y z : F) : Mat4 F :=
  !![x, 0, 0, 0; 0, y, 0, 0; 0, 0, z, 0; 0, 0, 0, 1]

/-- The function `glm::translate(m, v)`: `m` times the translation by `v`. -/
def glmTranslate (M : Mat4 F) (v : F × F × F) : Mat4 F :=
  M * translateMat v.1 v.2.1 v.2.2

/-- The function `glm::rotate(m, angle, axis)` for the axis `(0, 0, 1)` the
program passes: `m` times the rotation about z by `angle` radians. -/
def glmRotateZ (m : MathLib F) (M : Mat4 F) (angle : F) : Mat4 F :=
  M * rotateZMat (m.cosf angle) (m.sinf angle)

/-- The function `glm::scale(m, v)`: `m` times the scaling by `v`. -/
def glmScale (M : Mat4 F) (v : F × F × F) : Mat4 F :=
  M * scaleMat v.1 v.2.1 v.2.2

/-- The function `glm::radians`: degrees to radians, a multiplication by the
constant `pi / 180` that glm spells out. -/
def glmRadians (degrees : F) : F :=
  degrees * 0.01745329251994329576923690768489

/-- The model matrix of the frame loop (lines 468-471). -/
def modelMatrix (m : MathLib F) (st : AppState F) : Mat4 F :=
  let model : Mat4 F := 1
  let model := glmTranslate model (st.translation.1, st.translation.2, 0)
  let model := glmRotateZ m model (glmRadians st.rotationAngle)
  glmScale model (st.scale, st.scale, st.scale)

/-- The matrix the specification gives for a state: `Translate(tx, ty, 0) *
RotateZ(angle) * Scale(s, s, s)` with `angle` the stored rotation angle, in
radians. -/
def specModelMatrix (m : MathLib F) (st : AppState F) : Mat4 F :=
  translateMat st.translation.1 st.translation.2 0 *
    rotateZMat (m.cosf st.rotationAngle) (m.sinf st.rotationAngle) *
    scaleMat st.scale st.scale st.scale

end ModelMatrix

/-! ## Sample instances of the library parameters -/

/-- A rational stand-in for the C math library, used to run the definitions on
concrete inputs: the Taylor polynomials of degree four and five. -/
def sampleMath : MathLib ℚ where
  cosf := fun x => 1 - x ^ 2 / 2 + x ^ 4 / 24
  sinf := fun x => x - x ^ 3 / 6 + x ^ 5 / 120

/-- The value of a run of decimal digits. -/
def digitsValue (ds : List Char) : Nat :=
  ds.foldl (fun n c => 10 * n + (c.toNat - 48)) 0

/-- The optional sign in front of a number: whether it is a minus, and the
characters after it. -/
def splitSign (cs : List Char) : Bool × List Char :=
  match cs with
  | c :: r => if c.toNat = 45 then (true, r) else if c.toNat = 43 then (false, r) else (false, cs)
  | [] => (false, [])

/-- A stand-in for `num_get` on `int`: an optional sign and decimal digits; no
digit stores `0` and fails, a value outside the `int` range stores the nearest
bound and fails, running into the end of the buffer sets `eofbit`. -/
def sampleGetInt (cs : List Char) : NumGet Int :=
  let sg := splitSign cs
  let ds := sg.2.takeWhile Char.isDigit
  let rest := sg.2.dropWhile Char.isDigit
  let v : Int := if sg.1 then -(digitsValue ds : Int) else (digitsValue ds : Int)
  if ds.isEmpty then ⟨some 0, rest, false⟩
  else if v > 2147483647 then ⟨some 2147483647, rest, false⟩
  else if v < -2147483648 then ⟨some (-2147483648), rest, false⟩
  else ⟨some v, rest, !rest.isEmpty⟩

/-- A stand-in for `num_get` on `bool` without `boolalpha`: the number is read
as an integer, `0` is false, `1` is true, anything else stores true and
fails. -/
def sampleGetBool (cs : List Char) : NumGet Bool :=
  let sg := splitSign cs
  let ds := sg.2.takeWhile Char.isDigit
  let rest := sg.2.dropWhile Char.isDigit
  if ds.isEmpty then ⟨some false, rest, false⟩
  else if digitsValue ds = 0 then ⟨some false, rest, !rest.isEmpty⟩
  else if digitsValue ds = 1 ∧ sg.1 = false then ⟨some true, rest, !rest.isEmpty⟩
  else ⟨some true, rest, false⟩

/-- A stand-in for `num_get` on `float`, for decimal notation without an
exponent: an optional sign, digits, and an optional point followed by
digits. -/
def sampleGetFloat (cs : List Char) : NumGet ℚ :=
  let sg := splitSign cs
  let ds := sg.2.takeWhile Char.isDigit
  let r1 := sg.2.dropWhile Char.isDigit
  let hasPoint : Bool := match r1 with
    | c :: _ => c.toNat = 46
    | [] => false
  let fs := if hasPoint then r1.tail.takeWhile Char.isDigit else []
  let rest := if hasPoint then r1.tail.dropWhile Char.isDigit else r1
  let v : ℚ := (digitsValue ds : ℚ) + (digitsValue fs : ℚ) / 10 ^ fs.length
  if ds.isEmpty ∧ fs.isEmpty then ⟨some 0, rest, false⟩
  else ⟨some (if sg.1 then -v else v), rest, !rest.isEmpty⟩

/-- The stand-ins bundled: the C++ runtime used to run the reader on concrete
files. -/
def sampleStreams : StreamLib ℚ where
  getInt := sampleGetInt
  getBool := sampleGetBool
  getFloat := sampleGetFloat
  indeterminate := 0

section CircleFacts

variable {F : Type} [LinearOrderedField F]

theorem circleVertices_length (m : MathLib F) (numSegments : Int) :
    (circleVertices m numSegments).length = (numSegments + 1).toNat + 1 := by
  simp [circleVertices]

theorem fanIndices_length (n : Nat) :
    ((List.range n).map fun i => [0, i + 1, i + 2]).flatten.length = 3 * n := by
  induction n with
  | zero => simp
  | succ k ih =>
    rw [List.range_succ, List.map_append, List.flatten_append, List.length_append, ih]
    simp
    omega

theorem circleIndices_length (numSegments : Int) :
    (circleIndices numSegments).length = 3 * numSegments.toNat := by
  unfold circleIndices
  exact fanIndices_length _

theorem mem_circleIndices {numSegments : Int} {j : Nat} :
    j ∈ circleIndices numSegments ↔
      ∃ i, i < numSegments.toNat ∧ (j = 0 ∨ j = i + 1 ∨ j = i + 2) := by
  simp [circleIndices, List.mem_flatten, List.mem_map, List.mem_range]

end CircleFacts

/-! ## Circle mesh: the loops and their closed form -/

theorem circleVertexLoop_eq {F : Type} [LinearOrderedField F] (m : MathLib F) (N : Int)
    (hN : N < INT_MAX) (k : Nat) :
    ∀ (i fuel : Nat) (acc : List (Vertex F)), (N + 1).toNat = i + k → k < fuel →
      circleVertexLoop m N fuel i acc = some (acc ++ (List.range' i k).map (circleVertex m N)) := by
  unfold INT_MAX at hN
  induction k with
  | zero =>
    intro i fuel acc hik hfuel
    obtain ⟨f, rfl⟩ : ∃ f, fuel = f + 1 := ⟨fuel - 1, by omega⟩
    have hle : ¬ ((i : Int) ≤ N) := by omega
    simp [circleVertexLoop, hle]
  | succ k ih =>
    intro i fuel acc hik hfuel
    obtain ⟨f, rfl⟩ : ∃ f, fuel = f + 1 := ⟨fuel - 1, by omega⟩
    have hle : (i : Int) ≤ N := by omega
    have hov : (i : Int) + 1 ≤ INT_MAX := by unfold INT_MAX; omega
    rw [circleVertexLoop, if_pos hle, if_pos hov, ih (i + 1) f _ (by omega) (by omega)]
    simp [List.range'_succ]

theorem circleIndexLoop_eq (N : Int) (hN : N < INT_MAX) (k : Nat) :
    ∀ (i fuel : Nat) (acc : List Nat), N.toNat = i + k → k < fuel →
      circleIndexLoop N fuel i acc =
        some (acc ++ ((List.range' i k).map fun i => [0, i + 1, i + 2]).flatten) := by
  unfold INT_MAX at hN
  induction k with
  | zero =>
    intro i fuel acc hik hfuel
    obtain ⟨f, rfl⟩ : ∃ f, fuel = f + 1 := ⟨fuel - 1, by omega⟩
    have hle : ¬ ((i : Int) < N) := by omega
    simp [circleIndexLoop, hle]
  | succ k ih =>
    intro i fuel acc hik hfuel
    obtain ⟨f, rfl⟩ : ∃ f, fuel = f + 1 := ⟨fuel - 1, by omega⟩
    have hle : (i : Int) < N := by omega
    have hov : (i : Int) + 2 ≤ INT_MAX := by unfold INT_MAX; omega
    rw [circleIndexLoop, if_pos hle, if_pos hov, ih (i + 1) f _ (by omega) (by omega)]
    simp [List.range'_succ]

/-- For a segment count below `INT_MAX` both loops of `setupCircle` exit, and
the state they leave is the closed form `setupCircle`. -/
theorem setupCircleRun_eq {F : Type} [LinearOrderedField F] (m : MathLib F) (N : Int)
    (st : AppState F) (hN : N < INT_MAX) (fuel : Nat) (hfuel : (N + 1).toNat < fuel) :
    setupCircleRun fuel m N st = some (setupCircle m N st) := by
  have hv := circleVertexLoop_eq m N hN (N + 1).toNat 0 fuel
    [⟨(0, 0, 0), (1, 1, 1), (1 / 2, 1 / 2)⟩] (by omega) hfuel
  have hi := circleIndexLoop_eq N hN N.toNat 0 fuel [] (by omega) (by omega)
  unfold setupCircleRun
  rw [hv, hi]
  simp only [← List.range_eq_range', List.nil_append, List.singleton_append]
  rfl

theorem circleVertexLoop_intMax {F : Type} [LinearOrderedField F] (m : MathLib F) (fuel : Nat) :
    ∀ (i : Nat) (acc : List (Vertex F)), (i : Int) ≤ INT_MAX →
      circleVertexLoop m INT_MAX fuel i acc = none := by
  induction fuel with
  | zero => intro i acc _; rfl
  | succ f ih =>
    intro i acc hi
    rw [circleVertexLoop, if_pos hi]
    by_cases hov : (i : Int) + 1 ≤ INT_MAX
    · rw [if_pos hov]
      exact ih (i + 1) _ (by push_cast; exact hov)
    · rw [if_neg hov]

/-- At the segment count `INT_MAX` the first loop of `setupCircle` never exits:
whatever the number of loop tests allowed, there is no result. -/
theorem setupCircleRun_intMax {F : Type} [LinearOrderedField F] (m : MathLib F)
    (st : AppState F) (fuel : Nat) : setupCircleRun fuel m INT_MAX st = none := by
  unfold setupCircleRun
  rw [circleVertexLoop_intMax m fuel 0 _ (by decide)]

/-- C1, as stated, fails at `N = 3`: `setupCircle(3)` returns with five
vertices, not `3 + 1`, and the index `4` occurs, which is not in `[0, 3]`. It
also fails at `N = 2147483647`, where `setupCircle` builds no mesh because its
first loop never exits. -/
theorem C1_circle_counts_counterexample :
    setupCircleRun 5 sampleMath 3 (defaultState ℚ) =
        some (setupCircle sampleMath 3 (defaultState ℚ)) ∧
      (setupCircle sampleMath 3 (defaultState ℚ)).circleMesh.vertices.length = 5 ∧
      4 ∈ (setupCircle sampleMath 3 (defaultState ℚ)).circleMesh.indices ∧
      ¬ ((setupCircle sampleMath 3 (defaultState ℚ)).circleMesh.vertices.length = 3 + 1 ∧
          (setupCircle sampleMath 3 (defaultState ℚ)).circleMesh.indices.length = 3 * 3 ∧
          ∀ j ∈ (setupCircle sampleMath 3 (defaultState ℚ)).circleMesh.indices, j ≤ 3) ∧
      ∀ fuel : Nat, setupCircleRun fuel sampleMath 2147483647 (defaultState ℚ) = none :=
  ⟨setupCircleRun_eq sampleMath 3 (defaultState ℚ) (by decide) 5 (by decide), by decide,
    by decide, by decide, fun fuel => setupCircleRun_intMax sampleMath (defaultState ℚ) fuel⟩

/-- C1, amended: for every segment count `N` with `3 <= N < 2147483647`,
`setupCircle(N)` returns (its loops exit within `N + 2` tests), and the mesh it
builds has exactly `N + 2` vertices and exactly `3N` indices, and every index
lies in `[0, N + 1]`, below the number of vertices. -/
theorem C1_circle_counts {F : Type} [LinearOrderedField F] (m : MathLib F) (N : Int)
    (st : AppState F) (hN : 3 ≤ N) (hmax : N < INT_MAX) :
    (∀ fuel : Nat, (N + 1).toNat < fuel →
        setupCircleRun fuel m N st = some (setupCircle m N st)) ∧
      ((setupCircle m N st).circleMesh.vertices.length : Int) = N + 2 ∧
      ((setupCircle m N st).circleMesh.indices.length : Int) = 3 * N ∧
      ∀ j ∈ (setupCircle m N st).circleMesh.indices,
        (j : Int) ≤ N + 1 ∧ j < (setupCircle m N st).circleMesh.vertices.length := by
  refine ⟨fun fuel hfuel => setupCircleRun_eq m N st hmax fuel hfuel, ?_⟩
  have hv : (setupCircle m N st).circleMesh.vertices = circleVertices m N := rfl
  have hi : (setupCircle m N st).circleMesh.indices = circleIndices N := rfl
  rw [hv, hi, circleVertices_length, circleIndices_length]
  refine ⟨by omega, by omega, ?_⟩
  intro j hj
  obtain ⟨i, hlt, hcase⟩ := mem_circleIndices.mp hj
  omega

/-- C1, amended, at `N = 3`: `setupCircle` returns within five loop tests, with
five vertices and nine indices, all at most `4`. -/
theorem C1_circle_counts_witness :
    (3 : Int) ≤ 3 ∧ (3 : Int) < INT_MAX ∧
      setupCircleRun 5 sampleMath 3 (defaultState ℚ) =
        some (setupCircle sampleMath 3 (defaultState ℚ)) ∧
      ((setupCircle sampleMath 3 (defaultState ℚ)).circleMesh.vertices.length : Int) = 3 + 2 ∧
      ((setupCircle sampleMath 3 (defaultState ℚ)).circleMesh.indices.length : Int) = 3 * 3 ∧
      ∀ j ∈ (setupCircle sampleMath 3 (defaultState ℚ)).circleMesh.indices,
        (j : Int) ≤ 3 + 1 ∧
          j < (setupCircle sampleMath 3 (defaultState ℚ)).circleMesh.vertices.length :=
  ⟨by decide, by decide,
    (C1_circle_counts sampleMath 3 (defaultState ℚ) (by decide) (by decide)).1 5 (by decide),
    (C1_circle_counts sampleMath 3 (defaultState ℚ) (by decide) (by decide)).2⟩

/-! ## Camera: zoom clamp, pan, UI capture -/

section CameraFacts

variable {F : Type} [LinearOrderedField F]

theorem scrollCallback_captured (io : ImGuiIO) (xoffset yoffset : F) (st : AppState F)
    (h : io.WantCaptureMouse = true) : scrollCallback io xoffset yoffset st = st := by
  simp [scrollCallback, h]

theorem scrollCallback_zoom (io : ImGuiIO) (xoffset yoffset : F) (st : AppState F)
    (h : io.WantCaptureMouse = false) :
    (scrollCallback io xoffset yoffset st).cameraZoom =
      min 20 (max (5 / 100) (st.cameraZoom + yoffset * (1 / 10) * st.cameraZoom)) := by
  simp only [scrollCallback, h, Bool.false_eq_true, if_false]
  have h520 : (5 / 100 : F) < 20 := by norm_num
  by_cases h1 : st.cameraZoom + yoffset * (1 / 10) * st.cameraZoom < 5 / 100
  · rw [if_pos h1, if_neg (not_lt.mpr h520.le), max_eq_left h1.le, min_eq_right h520.le]
  · rw [if_neg h1, max_eq_right (not_lt.mp h1)]
    by_cases h2 : st.cameraZoom + yoffset * (1 / 10) * st.cameraZoom > 20
    · rw [if_pos h2, min_eq_left h2.le]
    · rw [if_neg h2, min_eq_right (not_lt.mp h2)]

theorem scrollCallback_range (io : ImGuiIO) (xoffset yoffset : F) (st : AppState F)
    (h : 5 / 100 ≤ st.cameraZoom ∧ st.cameraZoom ≤ 20) :
    5 / 100 ≤ (scrollCallback io xoffset yoffset st).cameraZoom ∧
      (scrollCallback io xoffset yoffset st).cameraZoom ≤ 20 := by
  cases hio : io.WantCaptureMouse with
  | true => rw [scrollCallback_captured io xoffset yoffset st hio]; exact h
  | false =>
    rw [scrollCallback_zoom io xoffset yoffset st hio]
    exact ⟨le_min (by norm_num) (le_max_left _ _), min_le_left _ _⟩

theorem scrollAll_range (events : List ( ImGuiIO × F × F)) (st : AppState F)
    (h : 5 / 100 ≤ st.cameraZoom ∧ st.cameraZoom ≤ 20) :
    5 / 100 ≤ (scrollAll events st).cameraZoom ∧ (scrollAll events st).cameraZoom ≤ 20 := by
  induction events generalizing st with
  | nil => exact h
  | cons e es ih => exact ih _ (scrollCallback_range e.1 e.2.1 e.2.2 st h)

theorem cursorPosCallback_captured (fl : FloatLib F) (io : ImGuiIO) (size : Int × Int)
    (xpos ypos : F) (st : AppState F) (h : io.WantCaptureMouse = true) :
    cursorPosCallback fl io size xpos ypos st = st := by
  simp [cursorPosCallback, h]

end CameraFacts

theorem mouseButtonCallback_captured {F : Type} (io : ImGuiIO) (cursor : F × F) (button action mods : Int)
    (st : AppState F) (h : io.WantCaptureMouse = true) :
    mouseButtonCallback io cursor button action mods st = st := by
  simp [mouseButtonCallback, h]

/-- C3: from a camera zoom in `[0.05, 20]` every finite sequence of scroll
events, captured by the UI or not and with arbitrary offsets, leaves the zoom
in `[0.05, 20]`; and an uncaptured scroll event sets the zoom to
`zoom + scrollY * 0.1 * zoom` clamped to `[0.05, 20]`. -/
theorem C3_zoom_clamp {F : Type} [LinearOrderedField F] (events : List ( ImGuiIO × F × F))
    (st : AppState F) (h : 5 / 100 ≤ st.cameraZoom ∧ st.cameraZoom ≤ 20) :
    (5 / 100 ≤ (scrollAll events st).cameraZoom ∧ (scrollAll events st).cameraZoom ≤ 20) ∧
      ∀ (io : ImGuiIO) (xoffset yoffset : F) (s : AppState F), io.WantCaptureMouse = false →
        (scrollCallback io xoffset yoffset s).cameraZoom =
          min 20 (max (5 / 100) (s.cameraZoom + yoffset * (1 / 10) * s.cameraZoom)) :=
  ⟨scrollAll_range events st h, fun io x y s hio => scrollCallback_zoom io x y s hio⟩

/-- C3 at the default zoom `1.0`, with three scroll events of which the second
is captured by the UI. -/
theorem C3_zoom_clamp_witness :
    ((5 / 100 : ℚ) ≤ (defaultState ℚ).cameraZoom ∧ (defaultState ℚ).cameraZoom ≤ 20) ∧
      ((5 / 100 ≤
            (scrollAll [(⟨false, false⟩, 0, 1000), (⟨true, false⟩, 0, 3), (⟨false, false⟩, 0, -7)]
              (defaultState ℚ)).cameraZoom ∧
          (scrollAll [(⟨false, false⟩, 0, 1000), (⟨true, false⟩, 0, 3), (⟨false, false⟩, 0, -7)]
              (defaultState ℚ)).cameraZoom ≤ 20) ∧
        ∀ (io : ImGuiIO) (xoffset yoffset : ℚ) (s : AppState ℚ), io.WantCaptureMouse = false →
          (scrollCallback io xoffset yoffset s).cameraZoom =
            min 20 (max (5 / 100) (s.cameraZoom + yoffset * (1 / 10) * s.cameraZoom))) :=
  ⟨by norm_num [defaultState],
    C3_zoom_clamp [(⟨false, false⟩, 0, 1000), (⟨true, false⟩, 0, 3), (⟨false, false⟩, 0, -7)]
      (defaultState ℚ) (by norm_num [defaultState])⟩

/-- C9: a cursor-move or scroll event delivered while the UI wants the pointer
leaves the camera offset and the camera zoom as they were, dragging or not. -/
theorem C9_capture_blocks_camera {F : Type} [LinearOrderedField F] (fl : FloatLib F)
    (io : ImGuiIO) (size : Int × Int) (xpos ypos xoffset yoffset : F) (st : AppState F)
    (hio : io.WantCaptureMouse = true) :
    (cursorPosCallback fl io size xpos ypos st).cameraOffset = st.cameraOffset ∧
      (cursorPosCallback fl io size xpos ypos st).cameraZoom = st.cameraZoom ∧
      (scrollCallback io xoffset yoffset st).cameraOffset = st.cameraOffset ∧
      (scrollCallback io xoffset yoffset st).cameraZoom = st.cameraZoom := by
  rw [cursorPosCallback_captured fl io size xpos ypos st hio,
    scrollCallback_captured io xoffset yoffset st hio]
  exact ⟨rfl, rfl, rfl, rfl⟩

/-- C9 during a drag: a cursor move and a scroll under UI capture. -/
theorem C9_capture_blocks_camera_witness :
    (cursorPosCallback ieeeFloats ⟨true, false⟩ (800, 600) 110 130
          { defaultState ℚ with isDragging := true }).cameraOffset = (0, 0) ∧
      (cursorPosCallback ieeeFloats ⟨true, false⟩ (800, 600) 110 130
          { defaultState ℚ with isDragging := true }).cameraZoom = 1 ∧
      (scrollCallback ⟨true, false⟩ 0 5 { defaultState ℚ with isDragging := true }).cameraOffset =
        (0, 0) ∧
      (scrollCallback ⟨true, false⟩ 0 5 { defaultState ℚ with isDragging := true }).cameraZoom =
        1 :=
  C9_capture_blocks_camera ieeeFloats ⟨true, false⟩ (800, 600) 110 130 0 5
    { defaultState ℚ with isDragging := true } rfl

/-- C10, as stated, fails: with the UI wanting both pointer and keyboard, an
Insert press still flips the menu-visible flag and an Escape press still
requests the window to close. -/
theorem C10_keyboard_not_suppressed_counterexample :
    (keyCallback ⟨true, true⟩ GLFW_KEY_INSERT 0 GLFW_PRESS 0 (defaultState ℚ)).showMenu = false ∧
      (defaultState ℚ).showMenu = true ∧
      (keyCallback ⟨true, true⟩ GLFW_KEY_ESCAPE 0 GLFW_PRESS 0
          (defaultState ℚ)).windowShouldClose = true ∧
      (defaultState ℚ).windowShouldClose = false := by
  decide

/-- C10, amended: whenever the UI wants the pointer, the mouse-button,
cursor-move and scroll callbacks leave the whole application state unchanged;
the key callback does not consult the UI: whatever the UI reports (pointer,
keyboard, both or neither), an Insert press flips the menu-visible flag and no
other key event changes it, an Escape press requests the close and no other key
event changes the request, and the key callback leaves the dragging flag, the
camera offset and the camera zoom unchanged. -/
theorem C10_capture_suppresses_pointer_input {F : Type} [LinearOrderedField F]
    (fl : FloatLib F) (st : AppState F) :
    (∀ io : ImGuiIO, io.WantCaptureMouse = true →
        (∀ (cursor : F × F) (button action mods : Int),
          mouseButtonCallback io cursor button action mods st = st) ∧
        (∀ (size : Int × Int) (xpos ypos : F),
          cursorPosCallback fl io size xpos ypos st = st) ∧
        (∀ xoffset yoffset : F, scrollCallback io xoffset yoffset st = st)) ∧
      ∀ (ui : ImGuiIO) (key scancode action mods : Int),
        (keyCallback ui key scancode action mods st).showMenu =
            (if key = GLFW_KEY_INSERT ∧ action = GLFW_PRESS then !st.showMenu else st.showMenu) ∧
          (keyCallback ui key scancode action mods st).windowShouldClose =
            (if key = GLFW_KEY_ESCAPE ∧ action = GLFW_PRESS then true
              else st.windowShouldClose) ∧
          (keyCallback ui key scancode action mods st).isDragging = st.isDragging ∧
          (keyCallback ui key scancode action mods st).cameraOffset = st.cameraOffset ∧
          (keyCallback ui key scancode action mods st).cameraZoom = st.cameraZoom := by
  refine ⟨fun io hio => ⟨fun c b a m => mouseButtonCallback_captured io c b a m st hio,
    fun sz x y => cursorPosCallback_captured fl io sz x y st hio,
    fun x y => scrollCallback_captured io x y st hio⟩, ?_⟩
  intro ui key scancode action mods
  unfold keyCallback
  split_ifs <;> simp_all

/-- C10, amended, at the default state: the pointer callbacks under pointer
capture, and the key callback under keyboard-only capture, where an Insert
press hides the menu and an Escape press requests the close. -/
theorem C10_capture_suppresses_pointer_input_witness :
    (∀ (cursor : ℚ × ℚ) (button action mods : Int),
        mouseButtonCallback ⟨true, true⟩ cursor button action mods (defaultState ℚ) =
          defaultState ℚ) ∧
      (∀ (size : Int × Int) (xpos ypos : ℚ),
        cursorPosCallback ieeeFloats ⟨true, true⟩ size xpos ypos (defaultState ℚ) =
          defaultState ℚ) ∧
      (∀ xoffset yoffset : ℚ,
        scrollCallback ⟨true, true⟩ xoffset yoffset (defaultState ℚ) = defaultState ℚ) ∧
      (keyCallback ⟨false, true⟩ GLFW_KEY_INSERT 0 GLFW_PRESS 0 (defaultState ℚ)).showMenu =
        (if GLFW_KEY_INSERT = GLFW_KEY_INSERT ∧ GLFW_PRESS = GLFW_PRESS then
          !(defaultState ℚ).showMenu else (defaultState ℚ).showMenu) ∧
      (keyCallback ⟨false, true⟩ GLFW_KEY_ESCAPE 0 GLFW_PRESS 0
          (defaultState ℚ)).windowShouldClose =
        (if GLFW_KEY_ESCAPE = GLFW_KEY_ESCAPE ∧ GLFW_PRESS = GLFW_PRESS then true
          else (defaultState ℚ).windowShouldClose) ∧
      (keyCallback ⟨false, true⟩ GLFW_KEY_ESCAPE 0 GLFW_PRESS 0 (defaultState ℚ)).cameraZoom =
        (defaultState ℚ).cameraZoom :=
  ⟨((C10_capture_suppresses_pointer_input ieeeFloats (defaultState ℚ)).1 ⟨true, true⟩ rfl).1,
    ((C10_capture_suppresses_pointer_input ieeeFloats (defaultState ℚ)).1 ⟨true, true⟩ rfl).2.1,
    ((C10_capture_suppresses_pointer_input ieeeFloats (defaultState ℚ)).1 ⟨true, true⟩ rfl).2.2,
    ((C10_capture_suppresses_pointer_input ieeeFloats (defaultState ℚ)).2 ⟨false, true⟩
      GLFW_KEY_INSERT 0 GLFW_PRESS 0).1,
    ((C10_capture_suppresses_pointer_input ieeeFloats (defaultState ℚ)).2 ⟨false, true⟩
      GLFW_KEY_ESCAPE 0 GLFW_PRESS 0).2.1,
    ((C10_capture_suppresses_pointer_input ieeeFloats (defaultState ℚ)).2 ⟨false, true⟩
      GLFW_KEY_ESCAPE 0 GLFW_PRESS 0).2.2.2.2⟩

/-! ## Model matrix: the rotation argument -/

/-- What lines 468-471 compute: `Translate * RotateZ * Scale`, with the rotation
taken at `glm::radians` of the stored angle. -/
theorem modelMatrix_eq {F : Type} [LinearOrderedField F] (m : MathLib F) (st : AppState F) :
    modelMatrix m st =
      translateMat st.translation.1 st.translation.2 0 *
        rotateZMat (m.cosf (glmRadians st.rotationAngle)) (m.sinf (glmRadians st.rotationAngle)) *
        scaleMat st.scale st.scale st.scale := by
  simp [modelMatrix, glmTranslate, glmRotateZ, glmScale]

/-- C4, the code at the failing input: with the real cosine and sine and the
stored angle `pi` (the slider at 180 degrees), the model matrix of the frame
loop is not `Translate * RotateZ(pi) * Scale`; its rotation is by
`glm::radians(pi)`, about 3.14 degrees. -/
theorem C4_model_matrix_converts_radians_again :
    modelMatrix (MathLib.mk Real.cos Real.sin) { defaultState ℝ with rotationAngle := Real.pi } ≠
      specModelMatrix (MathLib.mk Real.cos Real.sin)
        { defaultState ℝ with rotationAngle := Real.pi } := by
  intro h
  have h00 := congrFun (congrFun h 0) 0
  rw [modelMatrix_eq] at h00
  simp [specModelMatrix, translateMat, rotateZMat, scaleMat, defaultState, Matrix.mul_apply,
    Fin.sum_univ_four, glmRadians] at h00
  have hpos : 0 < Real.cos (Real.pi * 0.01745329251994329576923690768489) := by
    apply Real.cos_pos_of_mem_Ioo
    constructor
    · have := Real.pi_pos
      nlinarith
    · have := Real.pi_pos
      nlinarith
  linarith

/-! ## Settings reader: frame, order independence, circle rebuild -/

theorem loadLine_eq_applyKey {F : Type} [LinearOrderedField F] (lib : StreamLib F) (line : String)
    (acc : AppState F × Int) :
    loadLine lib line acc = applyKey lib (keyOf (lineKey line)) (lineRest line) acc := by
  unfold loadLine
  dsimp only
  generalize lineKey line = key
  generalize lineRest line = ss
  by_cases h1 : key = "Shape"
  · subst h1; rfl
  by_cases h2 : key = "Wireframe"
  · subst h2; rfl
  by_cases h3 : key = "UseUniformColor"
  · subst h3; rfl
  by_cases h4 : key = "ShapeColor"
  · subst h4; rfl
  by_cases h5 : key = "ClearColor"
  · subst h5; rfl
  by_cases h6 : key = "Translation"
  · subst h6; rfl
  by_cases h7 : key = "Rotation"
  · subst h7; rfl
  by_cases h8 : key = "Scale"
  · subst h8; rfl
  by_cases h9 : key = "CircleSegments"
  · subst h9; rfl
  by_cases h10 : key = "EnableTexture"
  · subst h10; rfl
  by_cases h11 : key = "CameraOffset"
  · subst h11; rfl
  by_cases h12 : key = "CameraZoom"
  · subst h12; rfl
  by_cases h13 : key = "ShowMenu"
  · subst h13; rfl
  simp only [keyOf, if_neg h1, if_neg h2, if_neg h3, if_neg h4, if_neg h5, if_neg h6, if_neg h7,
    if_neg h8, if_neg h9, if_neg h10, if_neg h11, if_neg h12, if_neg h13]
  rfl

theorem keyOf_eq_some {s : String} {k : Key} (h : keyOf s = some k) : s = k.name := by
  unfold keyOf at h
  by_cases h1 : s = "Shape"
  · rw [if_pos h1] at h; cases h; exact h1
  rw [if_neg h1] at h
  by_cases h2 : s = "Wireframe"
  · rw [if_pos h2] at h; cases h; exact h2
  rw [if_neg h2] at h
  by_cases h3 : s = "UseUniformColor"
  · rw [if_pos h3] at h; cases h; exact h3
  rw [if_neg h3] at h
  by_cases h4 : s = "ShapeColor"
  · rw [if_pos h4] at h; cases h; exact h4
  rw [if_neg h4] at h
  by_cases h5 : s = "ClearColor"
  · rw [if_pos h5] at h; cases h; exact h5
  rw [if_neg h5] at h
  by_cases h6 : s = "Translation"
  · rw [if_pos h6] at h; cases h; exact h6
  rw [if_neg h6] at h
  by_cases h7 : s = "Rotation"
  · rw [if_pos h7] at h; cases h; exact h7
  rw [if_neg h7] at h
  by_cases h8 : s = "Scale"
  · rw [if_pos h8] at h; cases h; exact h8
  rw [if_neg h8] at h
  by_cases h9 : s = "CircleSegments"
  · rw [if_pos h9] at h; cases h; exact h9
  rw [if_neg h9] at h
  by_cases h10 : s = "EnableTexture"
  · rw [if_pos h10] at h; cases h; exact h10
  rw [if_neg h10] at h
  by_cases h11 : s = "CameraOffset"
  · rw [if_pos h11] at h; cases h; exact h11
  rw [if_neg h11] at h
  by_cases h12 : s = "CameraZoom"
  · rw [if_pos h12] at h; cases h; exact h12
  rw [if_neg h12] at h
  by_cases h13 : s = "ShowMenu"
  · rw [if_pos h13] at h; cases h; exact h13
  rw [if_neg h13] at h
  cases h

theorem keyOf_name (k : Key) : keyOf k.name = some k := by
  cases k <;> decide

theorem keyOf_eq_none_iff (s : String) : keyOf s = none ↔ s ∉ recognisedKeys := by
  constructor
  · intro h hmem
    simp only [recognisedKeys, List.mem_cons, List.mem_singleton, List.mem_nil_iff,
      or_false] at hmem
    rcases hmem with h | h | h | h | h | h | h | h | h | h | h | h | h <;>
      (subst h; revert h; decide)
  · intro h
    cases hk : keyOf s with
    | none => rfl
    | some k =>
      exfalso
      apply h
      rw [keyOf_eq_some hk]
      cases k <;> decide

theorem applyKey_comm {F : Type} (lib : StreamLib F) (k1 k2 : Option Key) (s1 s2 : IStream)
    (acc : AppState F × Int) (hne : k1 ≠ k2) :
    applyKey lib k1 s1 (applyKey lib k2 s2 acc) = applyKey lib k2 s2 (applyKey lib k1 s1 acc) := by
  rcases k1 with _ | k1 <;> rcases k2 with _ | k2
  · rfl
  · rfl
  · rfl
  · cases k1 <;> cases k2 <;> first | rfl | exact absurd rfl hne

theorem Key.name_mem (k : Key) : k.name ∈ recognisedKeys := by
  cases k <;> decide

theorem loadLine_unknown {F : Type} [LinearOrderedField F] (lib : StreamLib F) (line : String)
    (acc : AppState F × Int) (h : lineKey line ∉ recognisedKeys) : loadLine lib line acc = acc := by
  rw [loadLine_eq_applyKey, (keyOf_eq_none_iff _).mpr h]
  rfl

theorem loadLines_cons {F : Type} [LinearOrderedField F] (lib : StreamLib F) (l : String)
    (ls : List String) (acc : AppState F × Int) :
    loadLines lib (l :: ls) acc = loadLines lib ls (loadLine lib l acc) := rfl

theorem loadLines_append {F : Type} [LinearOrderedField F] (lib : StreamLib F)
    (l1 l2 : List String) (acc : AppState F × Int) :
    loadLines lib (l1 ++ l2) acc = loadLines lib l2 (loadLines lib l1 acc) := by
  simp [loadLines, List.foldl_append]

/-- A quantity that every branch other than `K` leaves alone is left alone by
the whole loop when no line selects `K`. -/
theorem loadLines_preserves {F : Type} [LinearOrderedField F] {β : Type} (lib : StreamLib F)
    (π : AppState F × Int → β) (K : Key)
    (hstep : ∀ k ss acc, k ≠ some K → π (applyKey lib k ss acc) = π acc) (lines : List String)
    (acc : AppState F × Int) (h : K.name ∉ lines.map lineKey) :
    π (loadLines lib lines acc) = π acc := by
  induction lines generalizing acc with
  | nil => rfl
  | cons l ls ih =>
    rw [List.map_cons, List.mem_cons, not_or] at h
    rw [loadLines_cons, ih _ h.2, loadLine_eq_applyKey]
    apply hstep
    intro hk
    exact h.1 (keyOf_eq_some hk).symm

/-- A quantity that no branch touches is left alone by the whole loop. -/
theorem loadLines_untouched {F : Type} [LinearOrderedField F] {β : Type} (lib : StreamLib F)
    (π : AppState F × Int → β) (hstep : ∀ k ss acc, π (applyKey lib k ss acc) = π acc)
    (lines : List String) (acc : AppState F × Int) : π (loadLines lib lines acc) = π acc := by
  induction lines generalizing acc with
  | nil => rfl
  | cons l ls ih => rw [loadLines_cons, ih, loadLine_eq_applyKey, hstep]

theorem applyKey_circle {F : Type} (lib : StreamLib F) (k : Option Key) (ss : IStream)
    (acc : AppState F × Int) :
    (applyKey lib k ss acc).1.circleSegments = acc.1.circleSegments ∧
      (applyKey lib k ss acc).1.circleMesh = acc.1.circleMesh ∧
      (applyKey lib k ss acc).1.circleIndexCount = acc.1.circleIndexCount := by
  rcases k with _ | k
  · exact ⟨rfl, rfl, rfl⟩
  · cases k <;> exact ⟨rfl, rfl, rfl⟩

theorem loadLines_circle {F : Type} [LinearOrderedField F] (lib : StreamLib F) (lines : List String)
    (acc : AppState F × Int) :
    (loadLines lib lines acc).1.circleSegments = acc.1.circleSegments ∧
      (loadLines lib lines acc).1.circleMesh = acc.1.circleMesh ∧
      (loadLines lib lines acc).1.circleIndexCount = acc.1.circleIndexCount :=
  ⟨loadLines_untouched lib (fun a => a.1.circleSegments)
      (fun k ss a => (applyKey_circle lib k ss a).1) lines acc,
    loadLines_untouched lib (fun a => a.1.circleMesh)
      (fun k ss a => (applyKey_circle lib k ss a).2.1) lines acc,
    loadLines_untouched lib (fun a => a.1.circleIndexCount)
      (fun k ss a => (applyKey_circle lib k ss a).2.2) lines acc⟩

/-- The final `if` of `loadSettings` changes the three circle globals at
most. -/
theorem loadSettings_eq {F : Type} [LinearOrderedField F] (lib : StreamLib F) (m : MathLib F)
    (lines : List String) (st : AppState F) :
    ∃ c cm cs, loadSettings lib m (some lines) st =
      { (loadLines lib lines (st, st.circleSegments)).1 with
        circleIndexCount := c, circleMesh := cm, circleSegments := cs } := by
  unfold loadSettings
  dsimp only
  by_cases h : (loadLines lib lines (st, st.circleSegments)).2 ≠
      (loadLines lib lines (st, st.circleSegments)).1.circleSegments
  · rw [if_pos h]
    exact ⟨_, _, _, rfl⟩
  · rw [if_neg h]
    exact ⟨_, _, _, rfl⟩

/-- Without a `CircleSegments` line the final `if` of `loadSettings` does
nothing. -/
theorem loadSettings_no_segments {F : Type} [LinearOrderedField F] (lib : StreamLib F)
    (m : MathLib F) (lines : List String) (st : AppState F)
    (h : "CircleSegments" ∉ lines.map lineKey) :
    loadSettings lib m (some lines) st = (loadLines lib lines (st, st.circleSegments)).1 := by
  have h2 : (loadLines lib lines (st, st.circleSegments)).2 = st.circleSegments :=
    loadLines_preserves lib (fun a => a.2) Key.circleSegments
      (fun k ss a hk => by
        rcases k with _ | k
        · rfl
        · cases k <;> first | rfl | exact absurd rfl hk)
      lines _ h
  have h1 := (loadLines_circle lib lines (st, st.circleSegments)).1
  unfold loadSettings
  dsimp only
  rw [if_neg]
  rw [h2, h1]
  exact fun hne => hne rfl

/-- A global that no branch other than `K` writes, and that the final rebuild
does not write, keeps its value when no line selects `K`. -/
theorem loadSettings_preserves {F : Type} [LinearOrderedField F] {β : Type} (lib : StreamLib F)
    (m : MathLib F) (K : Key) (π : AppState F → β)
    (hstep : ∀ k ss acc, k ≠ some K → π (applyKey lib k ss acc).1 = π acc.1)
    (hfin : ∀ s c cm cs,
      π { s with circleIndexCount := c, circleMesh := cm, circleSegments := cs } = π s)
    (lines : List String) (st : AppState F) (h : K.name ∉ lines.map lineKey) :
    π (loadSettings lib m (some lines) st) = π st := by
  obtain ⟨c, cm, cs, heq⟩ := loadSettings_eq lib m lines st
  rw [heq, hfin]
  exact loadLines_preserves lib (fun a => π a.1) K hstep lines (st, st.circleSegments) h

/-- C5: a line whose first token is none of the thirteen recognised keys
changes nothing, and every global whose key is the first token of no line of
the file has the same value after `loadSettings` as before; for the key
`CircleSegments` these are the segment count and the circle mesh with its
index count. -/
theorem C5_load_touches_only_named_fields {F : Type} [LinearOrderedField F] (lib : StreamLib F)
    (m : MathLib F) (lines : List String) (st : AppState F) :
    (∀ (line : String) (acc : AppState F × Int), lineKey line ∉ recognisedKeys →
        loadLine lib line acc = acc) ∧
      ("Shape" ∉ lines.map lineKey →
        (loadSettings lib m (some lines) st).currentShape = st.currentShape) ∧
      ("Wireframe" ∉ lines.map lineKey →
        (loadSettings lib m (some lines) st).wireframeMode = st.wireframeMode) ∧
      ("UseUniformColor" ∉ lines.map lineKey →
        (loadSettings lib m (some lines) st).useUniformColor = st.useUniformColor) ∧
      ("ShapeColor" ∉ lines.map lineKey →
        (loadSettings lib m (some lines) st).shapeColor = st.shapeColor) ∧
      ("ClearColor" ∉ lines.map lineKey →
        (loadSettings lib m (some lines) st).clearColor = st.clearColor) ∧
      ("Translation" ∉ lines.map lineKey →
        (loadSettings lib m (some lines) st).translation = st.translation) ∧
      ("Rotation" ∉ lines.map lineKey →
        (loadSettings lib m (some lines) st).rotationAngle = st.rotationAngle) ∧
      ("Scale" ∉ lines.map lineKey → (loadSettings lib m (some lines) st).scale = st.scale) ∧
      ("CircleSegments" ∉ lines.map lineKey →
        (loadSettings lib m (some lines) st).circleSegments = st.circleSegments ∧
          (loadSettings lib m (some lines) st).circleMesh = st.circleMesh ∧
          (loadSettings lib m (some lines) st).circleIndexCount = st.circleIndexCount) ∧
      ("EnableTexture" ∉ lines.map lineKey →
        (loadSettings lib m (some lines) st).enableTexture = st.enableTexture) ∧
      ("CameraOffset" ∉ lines.map lineKey →
        (loadSettings lib m (some lines) st).cameraOffset = st.cameraOffset) ∧
      ("CameraZoom" ∉ lines.map lineKey →
        (loadSettings lib m (some lines) st).cameraZoom = st.cameraZoom) ∧
      ("ShowMenu" ∉ lines.map lineKey →
        (loadSettings lib m (some lines) st).showMenu = st.showMenu) := by
  have hs : ∀ (K : Key) {β : Type} (π : AppState F → β),
      (∀ k ss acc, k ≠ some K → π (applyKey lib k ss acc).1 = π acc.1) →
      (∀ s c cm cs,
        π { s with circleIndexCount := c, circleMesh := cm, circleSegments := cs } = π s) →
      K.name ∉ lines.map lineKey → π (loadSettings lib m (some lines) st) = π st :=
    fun K _ π h1 h2 h => loadSettings_preserves lib m K π h1 h2 lines st h
  refine ⟨fun line acc h => loadLine_unknown lib line acc h,
    hs .shape (fun s => s.currentShape) ?_ (fun _ _ _ _ => rfl),
    hs .wireframe (fun s => s.wireframeMode) ?_ (fun _ _ _ _ => rfl),
    hs .useUniformColor (fun s => s.useUniformColor) ?_ (fun _ _ _ _ => rfl),
    hs .shapeColor (fun s => s.shapeColor) ?_ (fun _ _ _ _ => rfl),
    hs .clearColor (fun s => s.clearColor) ?_ (fun _ _ _ _ => rfl),
    hs .translation (fun s => s.translation) ?_ (fun _ _ _ _ => rfl),
    hs .rotation (fun s => s.rotationAngle) ?_ (fun _ _ _ _ => rfl),
    hs .scale (fun s => s.scale) ?_ (fun _ _ _ _ => rfl),
    ?_,
    hs .enableTexture (fun s => s.enableTexture) ?_ (fun _ _ _ _ => rfl),
    hs .cameraOffset (fun s => s.cameraOffset) ?_ (fun _ _ _ _ => rfl),
    hs .cameraZoom (fun s => s.cameraZoom) ?_ (fun _ _ _ _ => rfl),
    hs .showMenu (fun s => s.showMenu) ?_ (fun _ _ _ _ => rfl)⟩
  case refine_9 =>
    intro h
    rw [loadSettings_no_segments lib m lines st h]
    exact loadLines_circle lib lines (st, st.circleSegments)
  all_goals
    intro k ss acc hk
    rcases k with _ | k
    · rfl
    · cases k <;> first | rfl | exact absurd rfl hk

/-- C5 on a file with a comment line, a `Wireframe` line and a `Scale` line:
the other eleven keys are on no line and their globals keep the default
values; the comment line changes nothing. -/
theorem C5_load_touches_only_named_fields_witness :
    loadLine sampleStreams "# saved by hand" (defaultState ℚ, 36) = (defaultState ℚ, 36) ∧
      (loadSettings sampleStreams sampleMath (some ["# saved by hand", "Wireframe 1", "Scale 3"])
          (defaultState ℚ)).currentShape = (defaultState ℚ).currentShape ∧
      (loadSettings sampleStreams sampleMath (some ["# saved by hand", "Wireframe 1", "Scale 3"])
          (defaultState ℚ)).shapeColor = (defaultState ℚ).shapeColor ∧
      (loadSettings sampleStreams sampleMath (some ["# saved by hand", "Wireframe 1", "Scale 3"])
          (defaultState ℚ)).circleSegments = (defaultState ℚ).circleSegments ∧
      (loadSettings sampleStreams sampleMath (some ["# saved by hand", "Wireframe 1", "Scale 3"])
          (defaultState ℚ)).cameraZoom = (defaultState ℚ).cameraZoom ∧
      (loadSettings sampleStreams sampleMath (some ["# saved by hand", "Wireframe 1", "Scale 3"])
          (defaultState ℚ)).showMenu = (defaultState ℚ).showMenu :=
  ⟨(C5_load_touches_only_named_fields sampleStreams sampleMath
        ["# saved by hand", "Wireframe 1", "Scale 3"] (defaultState ℚ)).1 _ _ (by decide),
    (C5_load_touches_only_named_fields sampleStreams sampleMath
        ["# saved by hand", "Wireframe 1", "Scale 3"] (defaultState ℚ)).2.1 (by decide),
    (C5_load_touches_only_named_fields sampleStreams sampleMath
        ["# saved by hand", "Wireframe 1", "Scale 3"] (defaultState ℚ)).2.2.2.2.1 (by decide),
    ((C5_load_touches_only_named_fields sampleStreams sampleMath
        ["# saved by hand", "Wireframe 1", "Scale 3"]
        (defaultState ℚ)).2.2.2.2.2.2.2.2.2.1 (by decide)).1,
    (C5_load_touches_only_named_fields sampleStreams sampleMath
        ["# saved by hand", "Wireframe 1", "Scale 3"]
        (defaultState ℚ)).2.2.2.2.2.2.2.2.2.2.2.2.1 (by decide),
    (C5_load_touches_only_named_fields sampleStreams sampleMath
        ["# saved by hand", "Wireframe 1", "Scale 3"]
        (defaultState ℚ)).2.2.2.2.2.2.2.2.2.2.2.2.2 (by decide)⟩

/-- Two different list elements with the same image make that image occur at
least twice in the mapped list. -/
theorem two_le_count_map {α β : Type} [DecidableEq β] (f : α → β) {l : List α} {x y : α}
    (hx : x ∈ l) (hy : y ∈ l) (hxy : x ≠ y) (hf : f x = f y) : 2 ≤ (l.map f).count (f x) := by
  induction l with
  | nil => cases hx
  | cons a t ih =>
    rw [List.map_cons, List.count_cons]
    rcases List.mem_cons.mp hx with hxa | hx'
    · have hy' : y ∈ t := by
        rcases List.mem_cons.mp hy with h | h
        · exact absurd (hxa.trans h.symm) hxy
        · exact h
      have hpos : 0 < (t.map f).count (f x) :=
        List.count_pos_iff.mpr (hf ▸ List.mem_map_of_mem f hy')
      have hb : (f a == f x) = true := by rw [← hxa]; exact beq_self_eq_true _
      rw [if_pos hb]
      omega
    · rcases List.mem_cons.mp hy with hya | hy'
      · have hpos : 0 < (t.map f).count (f x) :=
          List.count_pos_iff.mpr (List.mem_map_of_mem f hx')
        have hb : (f a == f x) = true := by rw [← hya, hf]; exact beq_self_eq_true _
        rw [if_pos hb]
        omega
      · have := ih hx' hy'
        omega

/-- Two lines of a file in which every recognised key starts at most one line
act on the loop state in either order with the same result. -/
theorem loadLine_comm {F : Type} [LinearOrderedField F] (lib : StreamLib F) (lines : List String)
    (hkeys : ∀ k ∈ recognisedKeys, (lines.map lineKey).count k ≤ 1) (x y : String)
    (hx : x ∈ lines) (hy : y ∈ lines) (acc : AppState F × Int) :
    loadLine lib y (loadLine lib x acc) = loadLine lib x (loadLine lib y acc) := by
  by_cases hxy : x = y
  · subst hxy; rfl
  simp only [loadLine_eq_applyKey]
  by_cases hk : keyOf (lineKey x) = keyOf (lineKey y)
  · cases hkx : keyOf (lineKey x) with
    | none =>
      rw [hkx] at hk
      rw [← hk]
      rfl
    | some k =>
      exfalso
      have h1 : lineKey x = k.name := keyOf_eq_some hkx
      have h2 : lineKey y = k.name := keyOf_eq_some (hk ▸ hkx)
      have h3 := two_le_count_map lineKey hx hy hxy (h1.trans h2.symm)
      have h4 := hkeys (lineKey x) (h1 ▸ k.name_mem)
      omega
  · exact applyKey_comm lib _ _ _ _ acc (fun h => hk h.symm)

/-- C6: for a file in which every recognised key is the first token of at most
one line, `loadSettings` from the same state gives the same state on every
permutation of the lines. -/
theorem C6_load_order_independent {F : Type} [LinearOrderedField F] (lib : StreamLib F)
    (m : MathLib F) (l1 l2 : List String) (st : AppState F) (hperm : l1.Perm l2)
    (hkeys : ∀ k ∈ recognisedKeys, (l1.map lineKey).count k ≤ 1) :
    loadSettings lib m (some l1) st = loadSettings lib m (some l2) st := by
  have h : loadLines lib l1 (st, st.circleSegments) = loadLines lib l2 (st, st.circleSegments) :=
    List.Perm.foldl_eq' hperm
      (fun x hx y hy z => loadLine_comm lib l1 hkeys x y hx hy z) _
  unfold loadSettings
  dsimp only
  rw [h]

/-- C6 on a four-line file and its reversal. -/
theorem C6_load_order_independent_witness :
    List.Perm ["Shape 2", "CircleSegments 10", "ShapeColor 0.5 1 0.25", "ShowMenu 0"]
        ["ShowMenu 0", "ShapeColor 0.5 1 0.25", "CircleSegments 10", "Shape 2"] ∧
      (∀ k ∈ recognisedKeys,
        (["Shape 2", "CircleSegments 10", "ShapeColor 0.5 1 0.25", "ShowMenu 0"].map
          lineKey).count k ≤ 1) ∧
      loadSettings sampleStreams sampleMath
          (some ["Shape 2", "CircleSegments 10", "ShapeColor 0.5 1 0.25", "ShowMenu 0"])
          (defaultState ℚ) =
        loadSettings sampleStreams sampleMath
          (some ["ShowMenu 0", "ShapeColor 0.5 1 0.25", "CircleSegments 10", "Shape 2"])
          (defaultState ℚ) :=
  ⟨(List.reverse_perm _).symm, by decide,
    C6_load_order_independent sampleStreams sampleMath _ _ (defaultState ℚ)
      (List.reverse_perm _).symm (by decide)⟩

/-- A line that stores `M` into `loadedSegments` does so whatever the variable
held, and leaves the globals alone. -/
theorem loadLine_segments {F : Type} [LinearOrderedField F] (lib : StreamLib F) (line : String)
    (M : Int) (acc : AppState F × Int) (h : segmentsOfLine lib line = some M) :
    loadLine lib line acc = (acc.1, M) := by
  unfold segmentsOfLine at h
  by_cases hc : lineKey line = "CircleSegments" ∧ (lineRest line).good = true
  · rw [if_pos hc] at h
    rw [loadLine_eq_applyKey, hc.1]
    show (acc.1, ((lineRest line).extract lib.getInt acc.2).1) = (acc.1, M)
    unfold IStream.extract
    rw [if_pos hc.2]
    cases hb : (lineRest line).buf.dropWhile isSpace with
    | nil => rw [hb] at h; cases h
    | cons c cs =>
      rw [hb] at h
      have h' : (lib.getInt (c :: cs)).val = some M := h
      show (acc.1, ((lib.getInt (c :: cs)).val).getD acc.2) = (acc.1, M)
      rw [h']
      rfl
  · rw [if_neg hc] at h
    cases h

/-- The value of `loadedSegments` at the end of the loop, when the last line
that selects `CircleSegments` stores `M`. -/
theorem loadLines_segments {F : Type} [LinearOrderedField F] (lib : StreamLib F)
    (pre post : List String) (line : String) (M : Int) (acc : AppState F × Int)
    (hline : segmentsOfLine lib line = some M)
    (hpost : "CircleSegments" ∉ post.map lineKey) :
    (loadLines lib (pre ++ line :: post) acc).2 = M := by
  rw [loadLines_append, loadLines_cons, loadLine_segments lib line M _ hline]
  exact loadLines_preserves lib (fun a => a.2) Key.circleSegments
    (fun k ss a hk => by
      rcases k with _ | k
      · rfl
      · cases k <;> first | rfl | exact absurd rfl hk)
    post _ hpost

theorem setupCircle_indexCount {F : Type} [LinearOrderedField F] (m : MathLib F) (N : Int)
    (st : AppState F) : (setupCircle m N st).circleIndexCount = toGLsizei (3 * N.toNat) := by
  show toGLsizei (circleIndices N).length = _
  rw [circleIndices_length]

theorem setupCircle_indices_length {F : Type} [LinearOrderedField F] (m : MathLib F) (N : Int)
    (st : AppState F) : (setupCircle m N st).circleMesh.indices.length = 3 * N.toNat :=
  circleIndices_length N

theorem toGLsizei_of_lt (n : Nat) (h : n < 2 ^ 31) : toGLsizei n = (n : Int) := by
  unfold toGLsizei
  have h' : (n : Int) < 2 ^ 31 := by exact_mod_cast h
  rw [Int.emod_eq_of_lt (by omega) (by omega)]
  omega

/-- The state `loadSettings` returns when the last line that selects
`CircleSegments` stores a value different from the current segment count. -/
theorem loadSettings_segments_ne {F : Type} [LinearOrderedField F] (lib : StreamLib F)
    (m : MathLib F) (pre post : List String) (line : String) (M : Int) (st : AppState F)
    (hline : segmentsOfLine lib line = some M)
    (hpost : "CircleSegments" ∉ post.map lineKey) (hne : M ≠ st.circleSegments) :
    loadSettings lib m (some (pre ++ line :: post)) st =
      setupCircle m M
        { (loadLines lib (pre ++ line :: post) (st, st.circleSegments)).1 with
          circleSegments := M } := by
  have h2 := loadLines_segments lib pre post line M (st, st.circleSegments) hline hpost
  have h1 := loadLines_circle lib (pre ++ line :: post) (st, st.circleSegments)
  have hcond : (loadLines lib (pre ++ line :: post) (st, st.circleSegments)).2 ≠
      (loadLines lib (pre ++ line :: post) (st, st.circleSegments)).1.circleSegments := by
    rw [h2, h1.1]; exact hne
  unfold loadSettings
  dsimp only
  rw [if_pos hcond, h2]

/-- The state `loadSettings` returns when the last line that selects
`CircleSegments` stores the current segment count. -/
theorem loadSettings_segments_eq {F : Type} [LinearOrderedField F] (lib : StreamLib F)
    (m : MathLib F) (pre post : List String) (line : String) (M : Int) (st : AppState F)
    (hline : segmentsOfLine lib line = some M)
    (hpost : "CircleSegments" ∉ post.map lineKey) (heq : M = st.circleSegments) :
    loadSettings lib m (some (pre ++ line :: post)) st =
      (loadLines lib (pre ++ line :: post) (st, st.circleSegments)).1 := by
  have h2 := loadLines_segments lib pre post line M (st, st.circleSegments) hline hpost
  have h1 := loadLines_circle lib (pre ++ line :: post) (st, st.circleSegments)
  have hcond : ¬ (loadLines lib (pre ++ line :: post) (st, st.circleSegments)).2 ≠
      (loadLines lib (pre ++ line :: post) (st, st.circleSegments)).1.circleSegments := by
    rw [h2, h1.1]; exact fun h => h heq
  unfold loadSettings
  dsimp only
  rw [if_neg hcond]

/-- C7, as stated, fails on four files read over a 36-segment mesh. A file
with `CircleSegments 10` and after it `CircleSegments 36` leaves the segment
count at 36 and rebuilds nothing. A file with `CircleSegments -1` stores the
count `-1` and rebuilds a mesh with no index, not `3 * (-1)` of them. A file
with `CircleSegments 715827883` records the index count -2147483647. A file
with `CircleSegments 2147483647` passes that value to `setupCircle`, which
never returns. -/
theorem C7_circle_follows_segments_counterexample :
    (loadSettings sampleStreams sampleMath (some ["CircleSegments 10", "CircleSegments 36"])
          (setupCircle sampleMath 36 (defaultState ℚ))).circleSegments = 36 ∧
      (loadSettings sampleStreams sampleMath (some ["CircleSegments 10", "CircleSegments 36"])
          (setupCircle sampleMath 36 (defaultState ℚ))).circleIndexCount = 108 ∧
      (loadSettings sampleStreams sampleMath (some ["CircleSegments -1"])
          (setupCircle sampleMath 36 (defaultState ℚ))).circleSegments = -1 ∧
      (loadSettings sampleStreams sampleMath (some ["CircleSegments -1"])
          (setupCircle sampleMath 36 (defaultState ℚ))).circleIndexCount = 0 ∧
      (loadSettings sampleStreams sampleMath (some ["CircleSegments -1"])
          (setupCircle sampleMath 36 (defaultState ℚ))).circleMesh.indices.length = 0 ∧
      (loadSettings sampleStreams sampleMath (some ["CircleSegments 715827883"])
          (setupCircle sampleMath 36 (defaultState ℚ))).circleIndexCount = -2147483647 ∧
      segmentsOfLine sampleStreams "CircleSegments 2147483647" = some 2147483647 ∧
      ∀ (fuel : Nat) (st : AppState ℚ), setupCircleRun fuel sampleMath 2147483647 st = none := by
  refine ⟨by decide, by decide, by decide, by decide, by decide, ?_, by decide,
    fun fuel st => setupCircleRun_intMax sampleMath st fuel⟩
  have h := loadSettings_segments_ne sampleStreams sampleMath [] [] "CircleSegments 715827883"
    715827883 (setupCircle sampleMath 36 (defaultState ℚ)) (by decide) (by decide) (by decide)
  rw [List.nil_append] at h
  rw [h, setupCircle_indexCount]
  decide

/-- C7, amended: let the last line of the file whose first token is
`CircleSegments` store the value `M`, with `M < 2147483647`. If `M` differs
from the current segment count, then after `loadSettings` the stored count is
`M` and the circle mesh is the one that `setupCircle(M)`, which returns, builds:
its index list has length `3 * max(M, 0)` and the recorded index count is that
length narrowed to a 32-bit `GLsizei`, equal to it whenever `3M < 2^31`. If `M`
equals the current count, the count, the mesh and the recorded index count are
unchanged. -/
theorem C7_circle_follows_last_segments_line {F : Type} [LinearOrderedField F] (lib : StreamLib F)
    (m : MathLib F) (pre post : List String) (line : String) (M : Int) (st : AppState F)
    (hline : segmentsOfLine lib line = some M)
    (hpost : "CircleSegments" ∉ post.map lineKey) (hmax : M < INT_MAX) :
    (M ≠ st.circleSegments →
        (loadSettings lib m (some (pre ++ line :: post)) st).circleSegments = M ∧
          (∀ fuel : Nat, (M + 1).toNat < fuel →
            setupCircleRun fuel m M st = some (setupCircle m M st)) ∧
          (loadSettings lib m (some (pre ++ line :: post)) st).circleMesh =
            (setupCircle m M st).circleMesh ∧
          (loadSettings lib m (some (pre ++ line :: post)) st).circleMesh.indices.length =
            3 * (max M 0).toNat ∧
          (loadSettings lib m (some (pre ++ line :: post)) st).circleIndexCount =
            toGLsizei (3 * (max M 0).toNat) ∧
          (3 * M < 2 ^ 31 →
            (loadSettings lib m (some (pre ++ line :: post)) st).circleIndexCount =
              ((3 * (max M 0).toNat : Nat) : Int))) ∧
      (M = st.circleSegments →
        (loadSettings lib m (some (pre ++ line :: post)) st).circleSegments =
            st.circleSegments ∧
          (loadSettings lib m (some (pre ++ line :: post)) st).circleMesh = st.circleMesh ∧
          (loadSettings lib m (some (pre ++ line :: post)) st).circleIndexCount =
            st.circleIndexCount) := by
  have hmaxNat : (max M 0).toNat = M.toNat := by
    rcases le_total 0 M with h | h
    · rw [max_eq_left h]
    · rw [max_eq_right h]
      have : M.toNat = 0 := Int.toNat_of_nonpos h
      rw [this]; rfl
  constructor
  · intro hne
    rw [loadSettings_segments_ne lib m pre post line M st hline hpost hne, hmaxNat]
    refine ⟨rfl, fun fuel hfuel => setupCircleRun_eq m M st hmax fuel hfuel, rfl, ?_, ?_, ?_⟩
    · exact circleIndices_length M
    · show toGLsizei (circleIndices M).length = _
      rw [circleIndices_length]
    · intro hsmall
      show toGLsizei (circleIndices M).length = _
      rw [circleIndices_length]
      exact toGLsizei_of_lt _ (by omega)
  · intro heq
    rw [loadSettings_segments_eq lib m pre post line M st hline hpost heq]
    exact loadLines_circle lib (pre ++ line :: post) (st, st.circleSegments)

/-- C7, amended, on the scenario of the specification: `CircleSegments 10` read
over a 36-segment mesh gives the count 10 and a mesh of 30 indices, recorded as
30. -/
theorem C7_circle_follows_last_segments_line_witness :
    segmentsOfLine sampleStreams "CircleSegments 10" = some 10 ∧
      "CircleSegments" ∉ ["ShowMenu 1"].map lineKey ∧ (10 : Int) < INT_MAX ∧
      (10 : Int) ≠ (setupCircle sampleMath 36 (defaultState ℚ)).circleSegments ∧
      (loadSettings sampleStreams sampleMath
          (some (["Shape 3"] ++ "CircleSegments 10" :: ["ShowMenu 1"]))
          (setupCircle sampleMath 36 (defaultState ℚ))).circleSegments = 10 ∧
      (loadSettings sampleStreams sampleMath
          (some (["Shape 3"] ++ "CircleSegments 10" :: ["ShowMenu 1"]))
          (setupCircle sampleMath 36 (defaultState ℚ))).circleMesh.indices.length =
        3 * (max (10 : Int) 0).toNat ∧
      (loadSettings sampleStreams sampleMath
          (some (["Shape 3"] ++ "CircleSegments 10" :: ["ShowMenu 1"]))
          (setupCircle sampleMath 36 (defaultState ℚ))).circleIndexCount =
        ((3 * (max (10 : Int) 0).toNat : Nat) : Int) :=
  ⟨by decide, by decide, by decide, by decide,
    ((C7_circle_follows_last_segments_line sampleStreams sampleMath ["Shape 3"] ["ShowMenu 1"]
      "CircleSegments 10" 10 (setupCircle sampleMath 36 (defaultState ℚ)) (by decide)
      (by decide) (by decide)).1 (by decide)).1,
    ((C7_circle_follows_last_segments_line sampleStreams sampleMath ["Shape 3"] ["ShowMenu 1"]
      "CircleSegments 10" 10 (setupCircle sampleMath 36 (defaultState ℚ)) (by decide)
      (by decide) (by decide)).1 (by decide)).2.2.2.1,
    ((C7_circle_follows_last_segments_line sampleStreams sampleMath ["Shape 3"] ["ShowMenu 1"]
      "CircleSegments 10" 10 (setupCircle sampleMath 36 (defaultState ℚ)) (by decide)
      (by decide) (by decide)).1 (by decide)).2.2.2.2.2 (by decide)⟩

/-! ## Texture guard -/

/-- C11: in every state whose texture handle is 0 the value written to the
`useTexture` uniform is 0 (false) whatever the enable-texture flag and the
selected shape are; the value written is 1 (true) exactly when enable-texture
is set, the selected shape is the quad and the texture handle is not 0, and 0
exactly when one of the three fails; the local flag `actuallyUseTexture`,
which also guards the texture binding, is true in exactly the same case; and a
texture that `stbi_load` cannot decode, or decodes with an unsupported number
of components, gives the handle 0. -/
theorem C11_texture_guard {F : Type} (st : AppState F) :
    (st.textureID = 0 → actuallyUseTexture st = false ∧ useTextureUniform st = 0) ∧
      (useTextureUniform st = 1 ↔
        st.enableTexture = true ∧ st.currentShape = ShapeType.QUAD ∧ st.textureID ≠ 0) ∧
      (useTextureUniform st = 0 ↔
        ¬ (st.enableTexture = true ∧ st.currentShape = ShapeType.QUAD ∧ st.textureID ≠ 0)) ∧
      (actuallyUseTexture st = true ↔
        st.enableTexture = true ∧ st.currentShape = ShapeType.QUAD ∧ st.textureID ≠ 0) ∧
      (∀ generated : Nat, loadTexture generated none = 0) ∧
      (∀ (generated : Nat) (n : Int), n ≠ 1 → n ≠ 3 → n ≠ 4 →
        loadTexture generated (some n) = 0) := by
  have hiff : actuallyUseTexture st = true ↔
      st.enableTexture = true ∧ st.currentShape = ShapeType.QUAD ∧ st.textureID ≠ 0 := by
    simp [actuallyUseTexture, and_assoc]
  refine ⟨?_, ?_, ?_, hiff, fun _ => rfl, ?_⟩
  · intro h
    have h1 : actuallyUseTexture st = false := by
      simp [actuallyUseTexture, h]
    exact ⟨h1, by simp [useTextureUniform, h1]⟩
  · rw [← hiff]
    unfold useTextureUniform
    by_cases h : actuallyUseTexture st = true
    · simp [h]
    · simp [h]
  · rw [← hiff]
    unfold useTextureUniform
    by_cases h : actuallyUseTexture st = true
    · simp [h]
    · simp [h]
  · intro g n h1 h3 h4
    simp [loadTexture, h1, h3, h4]

/-- C11 with texturing enabled and the quad selected: with the texture file
missing the uniform is written 0, with a loaded texture (handle 1) it is
written 1. -/
theorem C11_texture_guard_witness :
    ({ defaultState ℚ with
          enableTexture := true, currentShape := ShapeType.QUAD,
          textureID := loadTexture 1 none }).textureID = 0 ∧
      (actuallyUseTexture
            { defaultState ℚ with
              enableTexture := true, currentShape := ShapeType.QUAD,
              textureID := loadTexture 1 none } = false ∧
        useTextureUniform
            { defaultState ℚ with
              enableTexture := true, currentShape := ShapeType.QUAD,
              textureID := loadTexture 1 none } = 0) ∧
      useTextureUniform
          { defaultState ℚ with
            enableTexture := true, currentShape := ShapeType.QUAD,
            textureID := loadTexture 1 (some 3) } = 1 :=
  ⟨rfl,
    (C11_texture_guard
      { defaultState ℚ with
        enableTexture := true, currentShape := ShapeType.QUAD,
        textureID := loadTexture 1 none }).1 rfl,
    (C11_texture_guard
      { defaultState ℚ with
        enableTexture := true, currentShape := ShapeType.QUAD,
        textureID := loadTexture 1 (some 3) }).2.1.mpr ⟨rfl, rfl, by decide⟩⟩

/-! ## Quad mesh -/

/-- C12: the mesh that `setupQuad` builds has exactly 4 vertices and exactly 6
indices, the indices are 0, 1, 3 followed by 1, 2, 3, every index is below 4,
and the recorded quad index count, which the draw call of the quad uses, is
6. -/
theorem C12_quad_mesh {F : Type} [LinearOrderedField F] (st : AppState F) :
    (setupQuad st).quadMesh.vertices.length = 4 ∧
      (setupQuad st).quadMesh.indices.length = 6 ∧
      (setupQuad st).quadMesh.indices = [0, 1, 3] ++ [1, 2, 3] ∧
      (∀ j ∈ (setupQuad st).quadMesh.indices, j < 4) ∧
      (setupQuad st).quadIndexCount = 6 ∧
      drawElementsCount (setupQuad { st with currentShape := ShapeType.QUAD }) = some 6 := by
  refine ⟨rfl, rfl, rfl, ?_, ?_, ?_⟩
  · intro j hj
    have hj' : j ∈ [0, 1, 3, 1, 2, 3] := hj
    simp only [List.mem_cons, List.mem_singleton, List.mem_nil_iff, or_false] at hj'
    omega
  · show toGLsizei 6 = 6
    decide
  · show (if ShapeType.QUAD = ShapeType.QUAD then some (toGLsizei 6) else _) = some 6
    rw [if_pos rfl]
    decide

/-! ## Circle mesh: the index list and the recorded count -/

/-- The three entries that the second loop of `setupCircle` pushes at counter
`i`, read back from the finished list. -/
theorem fanIndices_getElem (n i : Nat) (h : i < n) :
    (((List.range n).map fun i => [0, i + 1, i + 2]).flatten)[3 * i]? = some 0 ∧
      (((List.range n).map fun i => [0, i + 1, i + 2]).flatten)[3 * i + 1]? = some (i + 1) ∧
      (((List.range n).map fun i => [0, i + 1, i + 2]).flatten)[3 * i + 2]? = some (i + 2) := by
  induction n with
  | zero => omega
  | succ k ih =>
    rw [List.range_succ, List.map_append, List.flatten_append]
    have hlen := fanIndices_length k
    by_cases hik : i < k
    · obtain ⟨h0, h1, h2⟩ := ih hik
      refine ⟨?_, ?_, ?_⟩
      · rw [List.getElem?_append_left (by omega)]; exact h0
      · rw [List.getElem?_append_left (by omega)]; exact h1
      · rw [List.getElem?_append_left (by omega)]; exact h2
    · have hi : i = k := by omega
      subst hi
      refine ⟨?_, ?_, ?_⟩
      · rw [List.getElem?_append_right (by omega), hlen]
        simp
      · rw [List.getElem?_append_right (by omega), hlen]
        simp
      · rw [List.getElem?_append_right (by omega), hlen]
        simp

/-- C13, as stated, fails at `N = 715827883`: `setupCircle` returns, the index
list has 2147483649 entries, and the recorded index count, a 32-bit `GLsizei`,
is -2147483647. It also fails at `N = 2147483647`, where `setupCircle` never
returns and no index list is generated. -/
theorem C13_circle_index_count_counterexample :
    0 ≤ (715827883 : Int) ∧
      setupCircleRun 715827885 sampleMath 715827883 (defaultState ℚ) =
        some (setupCircle sampleMath 715827883 (defaultState ℚ)) ∧
      (((setupCircle sampleMath 715827883 (defaultState ℚ)).circleMesh.indices.length : Int) =
        2147483649) ∧
      (setupCircle sampleMath 715827883 (defaultState ℚ)).circleIndexCount = -2147483647 ∧
      (setupCircle sampleMath 715827883 (defaultState ℚ)).circleIndexCount ≠
        ((setupCircle sampleMath 715827883 (defaultState ℚ)).circleMesh.indices.length : Int) ∧
      ∀ fuel : Nat, setupCircleRun fuel sampleMath 2147483647 (defaultState ℚ) = none := by
  refine ⟨by decide,
    setupCircleRun_eq sampleMath 715827883 (defaultState ℚ) (by decide) 715827885 (by decide),
    ?_, ?_, ?_, fun fuel => setupCircleRun_intMax sampleMath (defaultState ℚ) fuel⟩
  · rw [setupCircle_indices_length]
    have h : (715827883 : Int).toNat = 715827883 := rfl
    rw [h]
    norm_num
  · rw [setupCircle_indexCount]
    decide
  · rw [setupCircle_indexCount, setupCircle_indices_length]
    decide

/-- C13, amended: for every segment count `N` with `0 <= N < 2147483647`
passed to `setupCircle`, the function returns, every value of the index list
is below the number of vertices, the index list has length `3 * max(N, 0)` and
holds `0`, `i + 1`, `i + 2` at the positions `3i`, `3i + 1`, `3i + 2` for every
`i` in `[0, N)`, and the recorded index count, which the draw call of the
circle uses, is that length narrowed to a 32-bit `GLsizei`; it equals the
length whenever `3N < 2^31`. -/
theorem C13_circle_index_validity {F : Type} [LinearOrderedField F] (m : MathLib F) (N : Int)
    (st : AppState F) (hN : 0 ≤ N) (hmax : N < INT_MAX) :
    (∀ fuel : Nat, (N + 1).toNat < fuel →
        setupCircleRun fuel m N st = some (setupCircle m N st)) ∧
      (∀ j ∈ (setupCircle m N st).circleMesh.indices,
        j < (setupCircle m N st).circleMesh.vertices.length) ∧
      (setupCircle m N st).circleMesh.indices.length = 3 * (max N 0).toNat ∧
      (∀ i : Nat, (i : Int) < N →
        (setupCircle m N st).circleMesh.indices[3 * i]? = some 0 ∧
          (setupCircle m N st).circleMesh.indices[3 * i + 1]? = some (i + 1) ∧
          (setupCircle m N st).circleMesh.indices[3 * i + 2]? = some (i + 2)) ∧
      (setupCircle m N st).circleIndexCount =
        toGLsizei (setupCircle m N st).circleMesh.indices.length ∧
      drawElementsCount (setupCircle m N { st with currentShape := ShapeType.CIRCLE }) =
        some (toGLsizei (setupCircle m N st).circleMesh.indices.length) ∧
      (3 * N < 2 ^ 31 →
        (setupCircle m N st).circleIndexCount =
          ((setupCircle m N st).circleMesh.indices.length : Int)) := by
  refine ⟨fun fuel hfuel => setupCircleRun_eq m N st hmax fuel hfuel, ?_⟩
  have hv : (setupCircle m N st).circleMesh.vertices = circleVertices m N := rfl
  have hi : (setupCircle m N st).circleMesh.indices = circleIndices N := rfl
  have hmax0 : max N 0 = N := max_eq_left hN
  rw [hv, hi, circleVertices_length, circleIndices_length, hmax0]
  refine ⟨?_, rfl, ?_, ?_, ?_, ?_⟩
  · intro j hj
    obtain ⟨i, hlt, hcase⟩ := mem_circleIndices.mp hj
    omega
  · intro i hlt
    exact fanIndices_getElem N.toNat i (by omega)
  · exact setupCircle_indexCount m N st
  · show (if ShapeType.CIRCLE = ShapeType.QUAD then _
      else if ShapeType.CIRCLE = ShapeType.CIRCLE then
        some (toGLsizei (circleIndices N).length) else none) = _
    rw [if_neg (by decide), if_pos rfl, circleIndices_length]
  · intro hsmall
    rw [setupCircle_indexCount]
    exact toGLsizei_of_lt _ (by omega)

/-- C13, amended, at the default 36 segments: `setupCircle` returns within 38
loop tests, with 108 indices, all below the 38 vertices, and the recorded count
is 108. -/
theorem C13_circle_index_validity_witness :
    (0 : Int) ≤ 36 ∧ (36 : Int) < INT_MAX ∧
      setupCircleRun 38 sampleMath 36 (defaultState ℚ) =
        some (setupCircle sampleMath 36 (defaultState ℚ)) ∧
      (∀ j ∈ (setupCircle sampleMath 36 (defaultState ℚ)).circleMesh.indices,
        j < (setupCircle sampleMath 36 (defaultState ℚ)).circleMesh.vertices.length) ∧
      (setupCircle sampleMath 36 (defaultState ℚ)).circleMesh.indices.length =
        3 * (max (36 : Int) 0).toNat ∧
      (setupCircle sampleMath 36 (defaultState ℚ)).circleIndexCount =
        ((setupCircle sampleMath 36 (defaultState ℚ)).circleMesh.indices.length : Int) :=
  ⟨by decide, by decide,
    (C13_circle_index_validity sampleMath 36 (defaultState ℚ) (by decide) (by decide)).1 38
      (by decide),
    (C13_circle_index_validity sampleMath 36 (defaultState ℚ) (by decide) (by decide)).2.1,
    (C13_circle_index_validity sampleMath 36 (defaultState ℚ) (by decide) (by decide)).2.2.1,
    (C13_circle_index_validity sampleMath 36 (defaultState ℚ) (by decide)
      (by decide)).2.2.2.2.2.2 (by decide)⟩

/-! ## Floating-point rounding: evaluation -/

theorem roundHalfEven_eq (q : ℚ) (n : Int) (h1 : (n : ℚ) - 1 / 2 < q) (h2 : q < (n : ℚ) + 1 / 2) :
    roundHalfEven q = n := by
  unfold roundHalfEven
  by_cases hq : (n : ℚ) ≤ q
  · have hfl : ⌊q⌋ = n := by
      rw [Int.floor_eq_iff]
      exact ⟨hq, by linarith⟩
    rw [hfl, if_pos (by linarith)]
  · have hfl : ⌊q⌋ = n - 1 := by
      rw [Int.floor_eq_iff]
      push_cast
      exact ⟨by linarith, by linarith⟩
    rw [hfl]
    push_cast
    rw [if_neg (by linarith), if_pos (by linarith)]
    omega

theorem log2_eq {x : ℚ} {e : Int} (hx : 0 < x) (h1 : (2 : ℚ) ^ e ≤ x) (h2 : x < (2 : ℚ) ^ (e + 1)) :
    Int.log 2 x = e := by
  have hb : 1 < 2 := by norm_num
  have ha : e ≤ Int.log 2 x := (Int.zpow_le_iff_le_log hb hx).mp (by exact_mod_cast h1)
  have hc : Int.log 2 x < e + 1 := (Int.lt_zpow_iff_log_lt hb hx).mp (by exact_mod_cast h2)
  omega

/-- The value of `roundBinary` at a rational whose binary exponent `e` and
rounded significand `n` are given. -/
theorem roundBinary_eq (p : Nat) (emin : Int) (x : ℚ) (e n : Int) (hx : x ≠ 0)
    (h1 : (2 : ℚ) ^ e ≤ |x|) (h2 : |x| < (2 : ℚ) ^ (e + 1)) (hemin : emin ≤ e)
    (hn1 : (n : ℚ) - 1 / 2 < x / (2 : ℚ) ^ (e - ((p : Int) - 1)))
    (hn2 : x / (2 : ℚ) ^ (e - ((p : Int) - 1)) < (n : ℚ) + 1 / 2) :
    roundBinary p emin x = n * (2 : ℚ) ^ (e - ((p : Int) - 1)) := by
  unfold roundBinary
  rw [if_neg hx, log2_eq (abs_pos.mpr hx) h1 h2, max_eq_left hemin, roundHalfEven_eq _ n hn1 hn2]

theorem roundBinary_zero (p : Nat) (emin : Int) : roundBinary p emin 0 = 0 := by
  unfold roundBinary
  rw [if_pos rfl]

/-! ## Floating-point rounding: order -/

theorem roundHalfEven_bounds (q : ℚ) :
    q - 1 / 2 ≤ (roundHalfEven q : ℚ) ∧ (roundHalfEven q : ℚ) ≤ q + 1 / 2 := by
  unfold roundHalfEven
  have h1 := Int.floor_le q
  have h2 := Int.lt_floor_add_one q
  split_ifs <;> push_cast <;> constructor <;> linarith

theorem roundHalfEven_mono {a b : ℚ} (h : a ≤ b) : roundHalfEven a ≤ roundHalfEven b := by
  by_contra hlt
  push_neg at hlt
  have h1q : (roundHalfEven b : ℚ) + 1 ≤ roundHalfEven a := by exact_mod_cast hlt
  have ha := (roundHalfEven_bounds a).2
  have hb := (roundHalfEven_bounds b).1
  have hab : a = b := le_antisymm h (by linarith)
  subst hab
  omega

theorem roundHalfEven_intCast (n : Int) : roundHalfEven (n : ℚ) = n :=
  roundHalfEven_eq _ n (by linarith) (by linarith)

theorem roundHalfEven_le_int {q : ℚ} {n : Int} (h : q ≤ n) : (roundHalfEven q : ℚ) ≤ n := by
  have := roundHalfEven_mono h
  rw [roundHalfEven_intCast] at this
  exact_mod_cast this

theorem roundHalfEven_ge_int {q : ℚ} {n : Int} (h : (n : ℚ) ≤ q) : (n : ℚ) ≤ roundHalfEven q := by
  have := roundHalfEven_mono h
  rw [roundHalfEven_intCast] at this
  exact_mod_cast this

theorem two_zpow_scale (p : Nat) (E : Int) :
    (2 : ℚ) ^ (p : Int) * (2 : ℚ) ^ (E - ((p : Int) - 1)) = (2 : ℚ) ^ (E + 1) := by
  rw [← zpow_add₀ (by norm_num : (2 : ℚ) ≠ 0)]
  congr 1
  ring

theorem two_zpow_scale_pred (p : Nat) (E : Int) :
    (2 : ℚ) ^ ((p : Int) - 1) * (2 : ℚ) ^ (E - ((p : Int) - 1)) = (2 : ℚ) ^ E := by
  rw [← zpow_add₀ (by norm_num : (2 : ℚ) ≠ 0)]
  congr 1
  ring

/-- The result of rounding a positive rational: it is not negative, at most
the next power of two above the binade used, and at least the power of two
below when the number is not subnormal. -/
theorem roundBinary_pos_bounds (p : Nat) (hp : 1 ≤ p) (emin : Int) (x : ℚ) (hx : 0 < x) :
    0 ≤ roundBinary p emin x ∧
      roundBinary p emin x ≤ (2 : ℚ) ^ (max (Int.log 2 x) emin + 1) ∧
      (emin ≤ Int.log 2 x → (2 : ℚ) ^ (Int.log 2 x) ≤ roundBinary p emin x) := by
  have hb : 1 < 2 := by norm_num
  have habs : |x| = x := abs_of_pos hx
  have hlo : (2 : ℚ) ^ (Int.log 2 x) ≤ x := by exact_mod_cast Int.zpow_log_le_self hb hx
  have hhi : x < (2 : ℚ) ^ (Int.log 2 x + 1) := by
    exact_mod_cast Int.lt_zpow_succ_log_self hb x
  unfold roundBinary
  rw [if_neg hx.ne', habs]
  have hQpos : 0 < (2 : ℚ) ^ (max (Int.log 2 x) emin - ((p : Int) - 1)) :=
    zpow_pos (by norm_num) _
  refine ⟨?_, ?_, ?_⟩
  · have h0 : ((0 : Int) : ℚ) ≤ x / (2 : ℚ) ^ (max (Int.log 2 x) emin - ((p : Int) - 1)) := by
      push_cast
      exact div_nonneg hx.le hQpos.le
    have := roundHalfEven_ge_int h0
    push_cast at this
    exact mul_nonneg this hQpos.le
  · have hx2 : x ≤ (2 : ℚ) ^ (max (Int.log 2 x) emin + 1) :=
      hhi.le.trans (zpow_le_zpow_right₀ (by norm_num) (by omega))
    have hdiv : x / (2 : ℚ) ^ (max (Int.log 2 x) emin - ((p : Int) - 1)) ≤
        (((2 : Int) ^ p : Int) : ℚ) := by
      rw [div_le_iff₀ hQpos]
      push_cast
      rw [← zpow_natCast, two_zpow_scale]
      exact hx2
    have := roundHalfEven_le_int hdiv
    calc (roundHalfEven (x / (2 : ℚ) ^ (max (Int.log 2 x) emin - ((p : Int) - 1))) : ℚ) *
          (2 : ℚ) ^ (max (Int.log 2 x) emin - ((p : Int) - 1))
        ≤ (((2 : Int) ^ p : Int) : ℚ) *
          (2 : ℚ) ^ (max (Int.log 2 x) emin - ((p : Int) - 1)) :=
          mul_le_mul_of_nonneg_right this hQpos.le
      _ = (2 : ℚ) ^ (max (Int.log 2 x) emin + 1) := by
          push_cast
          rw [← zpow_natCast, two_zpow_scale]
  · intro hemin
    rw [max_eq_left hemin]
    have hQpos' : 0 < (2 : ℚ) ^ (Int.log 2 x - ((p : Int) - 1)) := zpow_pos (by norm_num) _
    have hcast : (((2 : Int) ^ (p - 1) : Int) : ℚ) = (2 : ℚ) ^ ((p : Int) - 1) := by
      push_cast
      rw [← zpow_natCast]
      congr 1
      omega
    have hdiv : (((2 : Int) ^ (p - 1) : Int) : ℚ) ≤
        x / (2 : ℚ) ^ (Int.log 2 x - ((p : Int) - 1)) := by
      rw [le_div_iff₀ hQpos', hcast, two_zpow_scale_pred]
      exact hlo
    have := roundHalfEven_ge_int hdiv
    calc (2 : ℚ) ^ (Int.log 2 x)
        = (((2 : Int) ^ (p - 1) : Int) : ℚ) * (2 : ℚ) ^ (Int.log 2 x - ((p : Int) - 1)) := by
          rw [hcast, two_zpow_scale_pred]
      _ ≤ _ := mul_le_mul_of_nonneg_right this hQpos'.le

/-- The result of rounding a negative rational: the mirror image of
`roundBinary_pos_bounds`. -/
theorem roundBinary_neg_bounds (p : Nat) (hp : 1 ≤ p) (emin : Int) (x : ℚ) (hx : x < 0) :
    roundBinary p emin x ≤ 0 ∧
      -(2 : ℚ) ^ (max (Int.log 2 (-x)) emin + 1) ≤ roundBinary p emin x ∧
      (emin ≤ Int.log 2 (-x) → roundBinary p emin x ≤ -(2 : ℚ) ^ (Int.log 2 (-x))) := by
  have hb : 1 < 2 := by norm_num
  have hx' : 0 < -x := neg_pos.mpr hx
  have habs : |x| = -x := abs_of_neg hx
  have hlo : (2 : ℚ) ^ (Int.log 2 (-x)) ≤ -x := by exact_mod_cast Int.zpow_log_le_self hb hx'
  have hhi : -x < (2 : ℚ) ^ (Int.log 2 (-x) + 1) := by
    exact_mod_cast Int.lt_zpow_succ_log_self hb (-x)
  unfold roundBinary
  rw [if_neg hx.ne, habs]
  have hQpos : 0 < (2 : ℚ) ^ (max (Int.log 2 (-x)) emin - ((p : Int) - 1)) :=
    zpow_pos (by norm_num) _
  refine ⟨?_, ?_, ?_⟩
  · have h0 : x / (2 : ℚ) ^ (max (Int.log 2 (-x)) emin - ((p : Int) - 1)) ≤ ((0 : Int) : ℚ) := by
      push_cast
      exact div_nonpos_of_nonpos_of_nonneg hx.le hQpos.le
    have := roundHalfEven_le_int h0
    push_cast at this
    exact mul_nonpos_of_nonpos_of_nonneg this hQpos.le
  · have hx2 : -x ≤ (2 : ℚ) ^ (max (Int.log 2 (-x)) emin + 1) :=
      hhi.le.trans (zpow_le_zpow_right₀ (by norm_num) (by omega))
    have hdiv : ((-((2 : Int) ^ p) : Int) : ℚ) ≤
        x / (2 : ℚ) ^ (max (Int.log 2 (-x)) emin - ((p : Int) - 1)) := by
      rw [le_div_iff₀ hQpos]
      push_cast
      rw [← zpow_natCast, neg_mul, two_zpow_scale]
      linarith
    have := roundHalfEven_ge_int hdiv
    calc -(2 : ℚ) ^ (max (Int.log 2 (-x)) emin + 1)
        = ((-((2 : Int) ^ p) : Int) : ℚ) *
          (2 : ℚ) ^ (max (Int.log 2 (-x)) emin - ((p : Int) - 1)) := by
          push_cast
          rw [← zpow_natCast, neg_mul, two_zpow_scale]
      _ ≤ _ := mul_le_mul_of_nonneg_right this hQpos.le
  · intro hemin
    rw [max_eq_left hemin]
    have hQpos' : 0 < (2 : ℚ) ^ (Int.log 2 (-x) - ((p : Int) - 1)) := zpow_pos (by norm_num) _
    have hcast : (((2 : Int) ^ (p - 1) : Int) : ℚ) = (2 : ℚ) ^ ((p : Int) - 1) := by
      push_cast
      rw [← zpow_natCast]
      congr 1
      omega
    have hdiv : x / (2 : ℚ) ^ (Int.log 2 (-x) - ((p : Int) - 1)) ≤
        ((-((2 : Int) ^ (p - 1)) : Int) : ℚ) := by
      rw [div_le_iff₀ hQpos', Int.cast_neg, hcast, neg_mul, two_zpow_scale_pred]
      linarith
    have := roundHalfEven_le_int hdiv
    calc (roundHalfEven (x / (2 : ℚ) ^ (Int.log 2 (-x) - ((p : Int) - 1))) : ℚ) *
          (2 : ℚ) ^ (Int.log 2 (-x) - ((p : Int) - 1))
        ≤ ((-((2 : Int) ^ (p - 1)) : Int) : ℚ) *
          (2 : ℚ) ^ (Int.log 2 (-x) - ((p : Int) - 1)) :=
          mul_le_mul_of_nonneg_right this hQpos'.le
      _ = -(2 : ℚ) ^ (Int.log 2 (-x)) := by
          rw [Int.cast_neg, hcast, neg_mul, two_zpow_scale_pred]

/-- Rounding to nearest in a binary format does not reverse an order. -/
theorem roundBinary_mono (p : Nat) (hp : 1 ≤ p) (emin : Int) {x y : ℚ} (hxy : x ≤ y) :
    roundBinary p emin x ≤ roundBinary p emin y := by
  rcases lt_trichotomy x 0 with hx | hx | hx
  · rcases lt_trichotomy y 0 with hy | hy | hy
    · -- both negative
      have hlog : Int.log 2 (-y) ≤ Int.log 2 (-x) :=
        Int.log_mono_right (neg_pos.mpr hy) (by linarith)
      rcases eq_or_lt_of_le (max_le_max hlog (le_refl emin)) with hE | hE
      · unfold roundBinary
        rw [if_neg hx.ne, if_neg hy.ne, abs_of_neg hx, abs_of_neg hy, hE]
        have hQpos : 0 < (2 : ℚ) ^ (max (Int.log 2 (-x)) emin - ((p : Int) - 1)) :=
          zpow_pos (by norm_num) _
        apply mul_le_mul_of_nonneg_right _ hQpos.le
        exact_mod_cast roundHalfEven_mono (div_le_div_of_nonneg_right hxy hQpos.le)
      · have hEx : emin ≤ Int.log 2 (-x) := by
          by_contra hcon
          rw [max_eq_right (by omega : Int.log 2 (-x) ≤ emin)] at hE
          exact absurd hE (not_lt.mpr (le_max_right _ _))
        have h1 := (roundBinary_neg_bounds p hp emin x hx).2.2 hEx
        have h2 := (roundBinary_neg_bounds p hp emin y hy).2.1
        rw [max_eq_left hEx] at hE
        have h3 : (2 : ℚ) ^ (max (Int.log 2 (-y)) emin + 1) ≤ (2 : ℚ) ^ (Int.log 2 (-x)) :=
          zpow_le_zpow_right₀ (by norm_num) (by omega)
        linarith
    · subst hy
      rw [roundBinary_zero]
      exact (roundBinary_neg_bounds p hp emin x hx).1
    · exact (roundBinary_neg_bounds p hp emin x hx).1.trans
        (roundBinary_pos_bounds p hp emin y hy).1
  · subst hx
    rw [roundBinary_zero]
    rcases eq_or_lt_of_le hxy with hy | hy
    · rw [← hy, roundBinary_zero]
    · exact (roundBinary_pos_bounds p hp emin y hy).1
  · have hy : 0 < y := lt_of_lt_of_le hx hxy
    have hlog : Int.log 2 x ≤ Int.log 2 y := Int.log_mono_right hx hxy
    rcases eq_or_lt_of_le (max_le_max hlog (le_refl emin)) with hE | hE
    · unfold roundBinary
      rw [if_neg hx.ne', if_neg hy.ne', abs_of_pos hx, abs_of_pos hy, hE]
      have hQpos : 0 < (2 : ℚ) ^ (max (Int.log 2 y) emin - ((p : Int) - 1)) :=
        zpow_pos (by norm_num) _
      apply mul_le_mul_of_nonneg_right _ hQpos.le
      exact_mod_cast roundHalfEven_mono (div_le_div_of_nonneg_right hxy hQpos.le)
    · have hEy : emin ≤ Int.log 2 y := by
        by_contra hcon
        rw [max_eq_right (by omega : Int.log 2 y ≤ emin)] at hE
        exact absurd hE (not_lt.mpr (le_max_right _ _))
      have h1 := (roundBinary_pos_bounds p hp emin x hx).2.1
      have h2 := (roundBinary_pos_bounds p hp emin y hy).2.2 hEy
      rw [max_eq_left hEy] at hE
      have h3 : (2 : ℚ) ^ (max (Int.log 2 x) emin + 1) ≤ (2 : ℚ) ^ (Int.log 2 y) :=
        zpow_le_zpow_right₀ (by norm_num) (by omega)
      linarith

/-- The IEEE 754 roundings satisfy the contract `FloatLib.Rounds`. -/
theorem ieeeFloats_rounds : ieeeFloats.Rounds :=
  ⟨fun _ _ _ _ h => roundBinary_mono 24 (by norm_num) (-126) h, roundBinary_zero 24 (-126),
    fun _ _ _ _ h => roundBinary_mono 53 (by norm_num) (-1022) h, roundBinary_zero 53 (-1022)⟩

/-! ## Pan: the rounded update at a far offset -/

theorem binary64_one : binary64 1 = 1 := by
  unfold binary64
  rw [roundBinary_eq 53 (-1022) 1 0 4503599627370496 (by norm_num) (by norm_num) (by norm_num)
    (by norm_num) (by norm_num) (by norm_num)]
  norm_num

theorem binary32_one : binary32 1 = 1 := by
  unfold binary32
  rw [roundBinary_eq 24 (-126) 1 0 8388608 (by norm_num) (by norm_num) (by norm_num)
    (by norm_num) (by norm_num) (by norm_num)]
  norm_num

theorem binary32_768 : binary32 768 = 768 := by
  unfold binary32
  rw [roundBinary_eq 24 (-126) 768 9 12582912 (by norm_num) (by norm_num) (by norm_num)
    (by norm_num) (by norm_num) (by norm_num)]
  norm_num

/-- The `float` nearest `2 / 768`. -/
theorem binary32_pixel : binary32 (2 / 768) = 11184811 / 4294967296 := by
  unfold binary32
  rw [roundBinary_eq 24 (-126) _ (-9) 11184811 (by norm_num) (by norm_num [abs_of_pos])
    (by norm_num [abs_of_pos]) (by norm_num) (by norm_num) (by norm_num)]
  norm_num

/-- The `float` nearest `2 / 768` is a `float`. -/
theorem binary32_pixel_fixed :
    binary32 (11184811 / 4294967296) = 11184811 / 4294967296 := by
  unfold binary32
  rw [roundBinary_eq 24 (-126) _ (-9) 11184811 (by norm_num) (by norm_num [abs_of_pos])
    (by norm_num [abs_of_pos]) (by norm_num) (by norm_num) (by norm_num)]
  norm_num

/-- The `float` nearest `100000` is `100000`. -/
theorem binary32_far : binary32 100000 = 100000 := by
  unfold binary32
  rw [roundBinary_eq 24 (-126) _ 16 12800000 (by norm_num) (by norm_num [abs_of_pos])
    (by norm_num [abs_of_pos]) (by norm_num) (by norm_num) (by norm_num)]
  norm_num

/-- One pixel step below `100000` rounds back to `100000`: the step is less
than half the spacing `2^-7` of the `float` numbers there. -/
theorem binary32_far_step : binary32 (100000 - 11184811 / 4294967296) = 100000 := by
  unfold binary32
  rw [roundBinary_eq 24 (-126) _ 16 12800000 (by norm_num) (by norm_num [abs_of_pos])
    (by norm_num [abs_of_pos]) (by norm_num) (by norm_num) (by norm_num)]
  norm_num

/-- The camera offset y after a one-pixel downward move at offset `100000`,
zoom `1` and viewport height `768`, in IEEE arithmetic. -/
theorem pan_far_offset :
    (cursorPosCallback ieeeFloats ⟨false, false⟩ (1366, 768) 400 301
        { defaultState ℚ with
          isDragging := true, cameraOffset := (0, 100000), lastMouseX := 400,
          lastMouseY := 300 }).cameraOffset.2 = 100000 := by
  have h : (cursorPosCallback ieeeFloats ⟨false, false⟩ (1366, 768) 400 301
        { defaultState ℚ with
          isDragging := true, cameraOffset := (0, 100000), lastMouseX := 400,
          lastMouseY := 300 }).cameraOffset.2 =
      binary32 (100000 -
        binary32 (binary32 (binary32 (binary64 (301 - 300)) * binary32 (2 / binary32 768)) *
          binary32 (1 / 1))) := by
    simp [cursorPosCallback, ieeeFloats, defaultState]
  rw [h]
  have h1 : (301 : ℚ) - 300 = 1 := by norm_num
  rw [h1, binary64_one, binary32_one, binary32_768, binary32_pixel, one_mul,
    binary32_pixel_fixed, div_one, binary32_one, mul_one, binary32_pixel_fixed,
    binary32_far_step]

/-- C8, as stated, fails at a state the settings file `CameraOffset 0 100000`
produces: with zoom `1`, viewport height `768` and an uncaptured drag, a cursor
move one pixel down (`dy = 1 > 0`) leaves camera offset y at `100000`; it is
neither strictly decreased nor equal to `100000 - 1 * (2 / 768) / 1`. -/
theorem C8_pan_delta_counterexample :
    (0 : ℚ) < 301 - 300 ∧
      ({ defaultState ℚ with
          isDragging := true, cameraOffset := (0, 100000), lastMouseX := 400,
          lastMouseY := 300 } : AppState ℚ).cameraOffset.2 = 100000 ∧
      (cursorPosCallback ieeeFloats ⟨false, false⟩ (1366, 768) 400 301
        { defaultState ℚ with
          isDragging := true, cameraOffset := (0, 100000), lastMouseX := 400,
          lastMouseY := 300 }).cameraOffset.2 = 100000 ∧
      ¬ ((cursorPosCallback ieeeFloats ⟨false, false⟩ (1366, 768) 400 301
        { defaultState ℚ with
          isDragging := true, cameraOffset := (0, 100000), lastMouseX := 400,
          lastMouseY := 300 }).cameraOffset.2 < 100000) ∧
      (cursorPosCallback ieeeFloats ⟨false, false⟩ (1366, 768) 400 301
        { defaultState ℚ with
          isDragging := true, cameraOffset := (0, 100000), lastMouseX := 400,
          lastMouseY := 300 }).cameraOffset.2 ≠ 100000 - (301 - 300) * (2 / 768) / 1 := by
  rw [pan_far_offset]
  refine ⟨by norm_num, rfl, rfl, lt_irrefl _, by norm_num⟩

/-- C8, amended: during a middle-mouse drag that the UI does not capture, with
positive viewport width and height and positive zoom, and when no operation of
the update overflows the `float` range, a cursor move by `(dx, dy)` pixels sets
camera offset x to `x + dx * (2 / width) * (1 / zoom)` and camera offset y to
`y - dy * (2 / height) * (1 / zoom)`, every operation rounded to `float` (the
deltas are `double` differences rounded to `float`); a positive `dy` does not
increase camera offset y. -/
theorem C8_pan_delta {F : Type} [LinearOrderedField F] (fl : FloatLib F) (io : ImGuiIO)
    (size : Int × Int) (xpos ypos : F) (st : AppState F) (hio : io.WantCaptureMouse = false)
    (hdrag : st.isDragging = true) (hw : 0 < size.1) (hh : 0 < size.2)
    (hz : 0 < st.cameraZoom) (hfl : fl.Rounds)
    (hy : fl.toFloat st.cameraOffset.2 = st.cameraOffset.2)
    (hrange : panInRange fl size xpos ypos st) :
    (cursorPosCallback fl io size xpos ypos st).cameraOffset.1 =
        fl.toFloat
          (st.cameraOffset.1 + panStep fl (xpos - st.lastMouseX) size.1 st.cameraZoom) ∧
      (cursorPosCallback fl io size xpos ypos st).cameraOffset.2 =
        fl.toFloat
          (st.cameraOffset.2 - panStep fl (ypos - st.lastMouseY) size.2 st.cameraZoom) ∧
      (0 < ypos - st.lastMouseY →
        (cursorPosCallback fl io size xpos ypos st).cameraOffset.2 ≤ st.cameraOffset.2) := by
  have hsz : size.1 > 0 ∧ size.2 > 0 := ⟨hw, hh⟩
  have hcb : (cursorPosCallback fl io size xpos ypos st).cameraOffset =
      (fl.toFloat
          (st.cameraOffset.1 + panStep fl (xpos - st.lastMouseX) size.1 st.cameraZoom),
        fl.toFloat
          (st.cameraOffset.2 - panStep fl (ypos - st.lastMouseY) size.2 st.cameraZoom)) := by
    simp only [cursorPosCallback, panStep, hio, hdrag, Bool.false_eq_true, if_false, if_true,
      hsz, and_self]
  rw [hcb]
  refine ⟨rfl, rfl, fun hdy => ?_⟩
  obtain ⟨hm32, hz32, hm64, hz64⟩ := hfl
  obtain ⟨-, -, ⟨r1, r2, r3, r4, r5, r6, r7⟩, r8, r9⟩ := hrange
  have hFM : (0 : F) ≤ FLT_MAX := by unfold FLT_MAX; positivity
  have h0 : inFloatRange (0 : F) := ⟨neg_nonpos.mpr hFM, hFM⟩
  have hd : 0 ≤ fl.toDouble (ypos - st.lastMouseY) := by
    have := hm64 0 _ h0 r1 hdy.le
    rwa [hz64] at this
  have hdy32 : 0 ≤ fl.toFloat (fl.toDouble (ypos - st.lastMouseY)) := by
    have := hm32 0 _ h0 r2 hd
    rwa [hz32] at this
  have hh32 : 0 ≤ fl.toFloat ((size.2 : Int) : F) := by
    have hpos : (0 : F) ≤ ((size.2 : Int) : F) := by exact_mod_cast hh.le
    have := hm32 0 _ h0 r3 hpos
    rwa [hz32] at this
  have hr : 0 ≤ fl.toFloat (2 / fl.toFloat ((size.2 : Int) : F)) := by
    have := hm32 0 _ h0 r4 (div_nonneg (by norm_num) hh32)
    rwa [hz32] at this
  have hp1 : 0 ≤ fl.toFloat (fl.toFloat (fl.toDouble (ypos - st.lastMouseY)) *
      fl.toFloat (2 / fl.toFloat ((size.2 : Int) : F))) := by
    have := hm32 0 _ h0 r5 (mul_nonneg hdy32 hr)
    rwa [hz32] at this
  have hiz : 0 ≤ fl.toFloat (1 / st.cameraZoom) := by
    have := hm32 0 _ h0 r6 (div_nonneg (by norm_num) hz.le)
    rwa [hz32] at this
  have hp2 : 0 ≤ panStep fl (ypos - st.lastMouseY) size.2 st.cameraZoom := by
    have := hm32 0 _ h0 r7 (mul_nonneg hp1 hiz)
    rwa [hz32] at this
  have hfin := hm32 _ _ r8 r9 (sub_le_self st.cameraOffset.2 hp2)
  rw [hy] at hfin
  exact hfin

theorem binary32_1366 : binary32 1366 = 1366 := by
  unfold binary32
  rw [roundBinary_eq 24 (-126) 1366 10 11190272 (by norm_num) (by norm_num) (by norm_num)
    (by norm_num) (by norm_num) (by norm_num)]
  norm_num

/-- C8, amended, in IEEE arithmetic at camera offset `(0, 100000)`, zoom `1`,
a 1366 by 768 viewport and a move one pixel down: no operation overflows and
camera offset y does not increase (it stays at `100000`). -/
theorem C8_pan_delta_witness :
    ieeeFloats.Rounds ∧
      panInRange ieeeFloats (1366, 768) 400 301
        { defaultState ℚ with
          isDragging := true, cameraOffset := (0, 100000), lastMouseX := 400,
          lastMouseY := 300 } ∧
      (0 : ℚ) < 301 - 300 ∧
      (cursorPosCallback ieeeFloats ⟨false, false⟩ (1366, 768) 400 301
        { defaultState ℚ with
          isDragging := true, cameraOffset := (0, 100000), lastMouseX := 400,
          lastMouseY := 300 }).cameraOffset.2 ≤ 100000 := by
  have h1 : (301 : ℚ) - 300 = 1 := by norm_num
  have h0 : (400 : ℚ) - 400 = 0 := by norm_num
  have hb0 : binary32 0 = 0 := roundBinary_zero 24 (-126)
  have hd0 : binary64 0 = 0 := roundBinary_zero 53 (-1022)
  have hrange : panInRange ieeeFloats (1366, 768) 400 301
      { defaultState ℚ with
        isDragging := true, cameraOffset := (0, 100000), lastMouseX := 400,
        lastMouseY := 300 } := by
    simp only [panInRange, panStepInRange, panStep, ieeeFloats, defaultState, Int.cast_ofNat,
      h1, h0, hb0, hd0, binary64_one, binary32_one, binary32_768, binary32_1366,
      binary32_pixel, one_mul, zero_mul, binary32_pixel_fixed, div_one, mul_one, add_zero]
    unfold inFloatRange FLT_MAX
    norm_num
  exact ⟨ieeeFloats_rounds, hrange, by norm_num,
    (C8_pan_delta ieeeFloats ⟨false, false⟩ (1366, 768) 400 301
      { defaultState ℚ with
        isDragging := true, cameraOffset := (0, 100000), lastMouseX := 400,
        lastMouseY := 300 }
      rfl rfl (by decide) (by decide) (by norm_num [defaultState]) ieeeFloats_rounds
      binary32_far hrange).2.2 (by norm_num)⟩

/-! ## Settings: save, then load -/

end OpenGLApp
